import Mathlib

/-!
Shallow embedding of the tool plugin registration subsystem of the
mcp-tool-kit repository, together with proofs about the claims of its
natural-language specification.

Embedded source files:
* `src/config_loader.py` (`is_tool_enabled`, `get_tool_config`)
* `src/app/tools/base_tool.py` (the `BaseTool` capability interface)
* `src/app/tools/tool_registry.py` (`ToolRegistry.register_tool`,
  `ToolRegistry.register_all_tools`, `LegacyToolWrapper`)

Python dictionaries are embedded as association lists with
replace-or-append update semantics; Python callables are opaque
identifiers (`Nat`); a Python expression that may raise is embedded as
`Except String` carrying the exception message.
-/

namespace ToolKit

/-! ## Association lists: the embedding of Python `dict` -/
/-- Lookup in an association list, mirroring `d.get(k)` / `d[k]`. -/
def dlookup {α : Type} (l : List (String × α)) (k : String) : Option α :=
  match l with
  | [] => none
  | (k', v) :: rest => if k' = k then some v else dlookup rest k

/-- Update in an association list, mirroring Python `d[k] = v`:
the value at an existing key is replaced in place, a fresh key is
appended at the end. -/
def dupdate {α : Type} (l : List (String × α)) (k : String) (v : α) :
    List (String × α) :=
  match l with
  | [] => [(k, v)]
  | (k', v') :: rest =>
      if k' = k then (k, v) :: rest else (k', v') :: dupdate rest k v

/-- Python dict merge `{**a, **b}`: start from `a`, write every entry
of `b` on top. -/
def dictMerge {α : Type} (a b : List (String × α)) : List (String × α) :=
  b.foldl (fun acc p => dupdate acc p.1 p.2) a

/-! ## Embedding of `src/config_loader.py`

A Python callable is embedded as an opaque identifier; an option bag
(`**kwargs` / a `tool_config` entry) maps option names to opaque value
identifiers. -/
/-- Opaque identifier standing for a Python callable. -/
abbrev Func := Nat

/-- `tool_name -> callable` mapping returned by `get_tools`. -/
abbrev OpMap := List (String × Func)

/-- A `**kwargs`-style option bag (option name to opaque value id). -/
abbrev OptionBag := List (String × Nat)

/-- The configuration dict loaded from `config.yaml`.  `enabled_tools`
and `tool_config` are `none` when the key is absent from the dict;
`otherKeys` records whether the dict holds any further keys (it affects
Python truthiness of the dict). -/
structure PyConfig where
  enabled_tools : Option (List (String × Bool))
  tool_config : Option (List (String × OptionBag))
  otherKeys : Bool

/-- Python truthiness of the optional configuration value: `None` and
the empty dict are falsy. -/
def truthyConfig (config : Option PyConfig) : Bool :=
  match config with
  | none => false
  | some c => c.enabled_tools.isSome || c.tool_config.isSome || c.otherKeys

/-- `config_loader.is_tool_enabled`. -/
def is_tool_enabled (config : Option PyConfig) (tool_name : String) : Bool :=
  match config with
  | none => false
  | some c =>
      if !truthyConfig (some c) then false
      else if c.enabled_tools.isNone || c.enabled_tools = some [] then true
      else (dlookup (c.enabled_tools.getD []) tool_name).getD false

/-- `config_loader.get_tool_config`. -/
def get_tool_config (config : Option PyConfig) (tool_name : String) : OptionBag :=
  match config with
  | none => []
  | some c =>
      if !truthyConfig (some c) then []
      else (dlookup (c.tool_config.getD []) tool_name).getD []

/-- The gate applied by `ToolRegistry.register_all_tools` line 207:
`if config and not is_tool_enabled(config, module_name): skip`.
`gateAllows` is true when the module is NOT skipped. -/
def gateAllows (config : Option PyConfig) (module_name : String) : Bool :=
  !(truthyConfig config && !is_tool_enabled config module_name)

/-- The options merged for one module in `register_all_tools` lines
215-216: `tool_config = get_tool_config(config, module_name) if config
else {}` followed by `merged_kwargs = {**init_kwargs, **tool_config}`. -/
def mergedOpts (config : Option PyConfig) (init_kwargs : OptionBag)
    (module_name : String) : OptionBag :=
  dictMerge init_kwargs
    (if truthyConfig config then get_tool_config config module_name else [])

/-! ## Embedding of `src/app/tools/base_tool.py`

The `BaseTool` class declares seven methods.  Four of them carry the
`@abstractmethod` decorator and have no default body: a subclass must
override them before it can be instantiated.  The remaining three have
concrete default bodies. -/
/-- The methods of `BaseTool` marked `@abstractmethod` (lines 25-43 of
`base_tool.py`): they have no default behaviour. -/
def baseToolAbstractMethods : List String :=
  ["get_name", "get_description", "get_tools", "get_dependencies"]

/-- The methods of `BaseTool` with a concrete default body (lines
45-65 of `base_tool.py`). -/
def baseToolDefaultedMethods : List String :=
  ["initialize", "cleanup", "validate_environment"]

/-- The mutable per-instance state of a `BaseTool` (`self.initialized`). -/
structure ToolSelf where
  initialized : Bool

/-- Default body of `BaseTool.initialize`: sets `self.initialized = True`
whatever the keyword options are. -/
def baseInitializeDefault (s : ToolSelf) (_kwargs : OptionBag) : ToolSelf :=
  { s with initialized := true }

/-- Default body of `BaseTool.cleanup`: `pass`. -/
def baseCleanupDefault (s : ToolSelf) : ToolSelf := s

/-- Default body of `BaseTool.validate_environment`: `return True`. -/
def baseValidateEnvironmentDefault : Bool := true

/-! ## Embedding of `ToolRegistry._create_legacy_wrapper`

A legacy module is a Python module object; the registry only interacts
with it through `hasattr`/`getattr` on the accessor names, through its
optional `DEPENDENCIES` constant and through its `initialize` function.
`attrs` maps an accessor name to the mapping the accessor returns when
called, so `hasattr(module, f)` is `(dlookup m.attrs f).isSome`. -/
structure LegacyModule where
  attrs : List (String × OpMap)
  DEPENDENCIES : Option (List String)
  initBehavior : OptionBag → Except String Unit

/-- `self.module_name.replace("_", "")`. -/
def stripUnderscores (s : String) : String :=
  String.mk (s.data.filter (fun c => c ≠ '_'))

/-- `self.module_name.replace("_", " ")`. -/
def replaceUnderscoreWithSpace (s : String) : String :=
  String.mk (s.data.map (fun c => if c = '_' then ' ' else c))

/-- The lower-case/upper-case letter pairs of basic latin, embedding
Python's per-character case mapping on the ASCII module names this
repository uses. -/
def casePairs : List (Char × Char) :=
  [('a', 'A'), ('b', 'B'), ('c', 'C'), ('d', 'D'), ('e', 'E'), ('f', 'F'),
   ('g', 'G'), ('h', 'H'), ('i', 'I'), ('j', 'J'), ('k', 'K'), ('l', 'L'),
   ('m', 'M'), ('n', 'N'), ('o', 'O'), ('p', 'P'), ('q', 'Q'), ('r', 'R'),
   ('s', 'S'), ('t', 'T'), ('u', 'U'), ('v', 'V'), ('w', 'W'), ('x', 'X'),
   ('y', 'Y'), ('z', 'Z')]

/-- Upper-case image of a character (identity outside `a`-`z`). -/
def pyToUpper (c : Char) : Char :=
  ((casePairs.find? (fun p => p.1 = c)).map Prod.snd).getD c

/-- Lower-case image of a character (identity outside `A`-`Z`). -/
def pyToLower (c : Char) : Char :=
  ((casePairs.find? (fun p => p.2 = c)).map Prod.fst).getD c

/-- Is the character a cased (basic latin) letter? -/
def pyIsAlpha (c : Char) : Bool :=
  (casePairs.any (fun p => p.1 = c)) || (casePairs.any (fun p => p.2 = c))

/-- One step of Python `str.title()`: a letter is upper-cased when the
previous character is not a letter and lower-cased otherwise. -/
def pyTitleAux (prevAlpha : Bool) : List Char → List Char
  | [] => []
  | c :: rest =>
      if pyIsAlpha c then
        (if prevAlpha then pyToLower c else pyToUpper c) :: pyTitleAux true rest
      else
        c :: pyTitleAux false rest

/-- Python `str.title()` on ASCII strings. -/
def pyTitle (s : String) : String :=
  String.mk (pyTitleAux false s.data)

/-- `LegacyToolWrapper.get_name`:
`self.module_name.replace("_", " ").title()`. -/
def legacyGetName (module_name : String) : String :=
  pyTitle (replaceUnderscoreWithSpace module_name)

/-- `LegacyToolWrapper.get_description`. -/
def legacyGetDescription (module_name : String) : String :=
  "Legacy tool: " ++ module_name

/-- The accessor names probed, in order, by
`LegacyToolWrapper.get_tools`. -/
def probeOrder (module_name : String) : List String :=
  ["get_" ++ module_name ++ "_tools",
   "get_" ++ stripUnderscores module_name ++ "_tools",
   "get_tools"]

/-- The probing loop of `LegacyToolWrapper.get_tools`: return the
result of calling the first accessor the module has, else `{}`. -/
def legacyGetToolsAux (m : LegacyModule) : List String → OpMap
  | [] => []
  | f :: rest =>
      match dlookup m.attrs f with
      | some t => t
      | none => legacyGetToolsAux m rest

/-- `LegacyToolWrapper.get_tools`. -/
def legacyGetTools (m : LegacyModule) (module_name : String) : OpMap :=
  legacyGetToolsAux m (probeOrder module_name)

/-- `LegacyToolWrapper.get_dependencies`: the module-level
`DEPENDENCIES` constant when present, else `[]`. -/
def legacyGetDependencies (m : LegacyModule) : List String :=
  m.DEPENDENCIES.getD []

/-- `LegacyToolWrapper.validate_environment`, with `env` the set of
environment variable names that are present and non-empty. -/
def legacyValidateEnvironment (env : List String) (module_name : String) : Bool :=
  if module_name = "news_api" then env.contains "NEWS_API_KEY"
  else if module_name = "fred" then env.contains "FRED_API_KEY"
  else if module_name = "worldbank" then true
  else true

/-! ## Embedding of `ToolRegistry` (`src/app/tools/tool_registry.py`)

A tool instance is the observable behaviour of a `BaseTool` object:
each hook either returns a value or raises (`Except String` with the
exception message).  A tool class is an instantiation behaviour plus
the Python `__name__` of the class, which `register_tool` uses as the
failure-map key when an exception is caught. -/
structure ToolInstance where
  name : String
  description : String
  validateEnv : Except String Bool
  initResult : OptionBag → Except String Unit
  toolsResult : Except String OpMap
  depsResult : Except String (List String)

structure ToolClass where
  className : String
  construct : Except String ToolInstance

/-- The `LegacyToolWrapper` instance synthesized by
`_create_legacy_wrapper` for a legacy module. -/
def mkLegacyInstance (env : List String) (module_name : String)
    (m : LegacyModule) : ToolInstance :=
  { name := legacyGetName module_name,
    description := legacyGetDescription module_name,
    validateEnv := .ok (legacyValidateEnvironment env module_name),
    initResult := m.initBehavior,
    toolsResult := .ok (legacyGetTools m module_name),
    depsResult := .ok (legacyGetDependencies m) }

/-- The `LegacyToolWrapper` class object returned by
`_create_legacy_wrapper` (its Python `__name__` is fixed). -/
def mkLegacyClass (env : List String) (module_name : String)
    (m : LegacyModule) : ToolClass :=
  { className := "LegacyToolWrapper",
    construct := .ok (mkLegacyInstance env module_name m) }

/-- The host runtime (`FastMCP`) as seen by the registry: the table of
bound operations (`mcp.tool(name=...)`), the aggregate dependency list,
and — statically — which operation names the host raises on when bound
(modelling that `self.mcp.tool(...)(...)` may itself raise). -/
structure MCP where
  bound : List (String × Func)
  dependencies : List String
  bindFailures : List (String × String)

/-- The mutable state of a `ToolRegistry`: `self.tools` (the success
table keyed by `tool.get_name()`) and `self.failed_tools`. -/
structure RegistryState where
  mcp : MCP
  tools : List (String × ToolInstance)
  failed : List (String × String)

/-- Observable events of a registration run, in program order.  They
record when the host-runtime reference is bound into the tool
(`set_mcp`), when the validation predicate is invoked, when the
initialization hook is invoked and with which options, each operation
binding, the success-table store, and the skip of a disabled module. -/
inductive RegEvent where
  | instantiate (className : String)
  | instantiateFail (className : String)
  | setMcp (toolName : String)
  | validateCall (toolName : String)
  | initCall (toolName : String) (opts : OptionBag)
  | bindCall (opName : String)
  | store (toolName : String)
  | recordFailure (key : String) (msg : String)
  | gateSkip (moduleName : String)
  deriving DecidableEq, Repr

/-- The `for tool_name, tool_func in tool_functions.items()` binding
loop of `register_tool` (lines 170-171): bind operations one by one
until the host raises; bindings made before the raise are kept. -/
def bindOps (m : MCP) : OpMap → MCP × List RegEvent × Option String
  | [] => (m, [], none)
  | (n, f) :: rest =>
      match dlookup m.bindFailures n with
      | some e => (m, [], some e)
      | none =>
          let res := bindOps { m with bound := dupdate m.bound n f } rest
          (res.1, .bindCall n :: res.2.1, res.2.2)

/-- `ToolRegistry.register_tool` (lines 149-187).  Returns the updated
registry state, the boolean result, and the event trace. -/
def register_tool (st : RegistryState) (c : ToolClass) (init_kwargs : OptionBag) :
    RegistryState × Bool × List RegEvent :=
  match c.construct with
  | .error e =>
      ({ st with failed := dupdate st.failed c.className e }, false,
       [.instantiateFail c.className, .recordFailure c.className e])
  | .ok tool =>
      match tool.validateEnv with
      | .error e =>
          ({ st with failed := dupdate st.failed c.className e }, false,
           [.instantiate c.className, .setMcp tool.name, .validateCall tool.name,
            .recordFailure c.className e])
      | .ok false =>
          ({ st with failed := dupdate st.failed tool.name "Failed environment validation" },
           false,
           [.instantiate c.className, .setMcp tool.name, .validateCall tool.name,
            .recordFailure tool.name "Failed environment validation"])
      | .ok true =>
          match tool.initResult init_kwargs with
          | .error e =>
              ({ st with failed := dupdate st.failed c.className e }, false,
               [.instantiate c.className, .setMcp tool.name, .validateCall tool.name,
                .initCall tool.name init_kwargs, .recordFailure c.className e])
          | .ok _ =>
              match tool.toolsResult with
              | .error e =>
                  ({ st with failed := dupdate st.failed c.className e }, false,
                   [.instantiate c.className, .setMcp tool.name, .validateCall tool.name,
                    .initCall tool.name init_kwargs, .recordFailure c.className e])
              | .ok ops =>
                  let res := bindOps st.mcp ops
                  match res.2.2 with
                  | some e =>
                      ({ st with mcp := res.1,
                                 failed := dupdate st.failed c.className e }, false,
                       [.instantiate c.className, .setMcp tool.name,
                        .validateCall tool.name, .initCall tool.name init_kwargs]
                         ++ res.2.1 ++ [.recordFailure c.className e])
                  | none =>
                      match tool.depsResult with
                      | .error e =>
                          ({ st with mcp := res.1,
                                     failed := dupdate st.failed c.className e }, false,
                           [.instantiate c.className, .setMcp tool.name,
                            .validateCall tool.name, .initCall tool.name init_kwargs]
                             ++ res.2.1 ++ [.recordFailure c.className e])
                      | .ok deps =>
                          ({ st with
                               mcp := { res.1 with
                                          dependencies := res.1.dependencies ++ deps },
                               tools := dupdate st.tools tool.name tool }, true,
                           [.instantiate c.className, .setMcp tool.name,
                            .validateCall tool.name, .initCall tool.name init_kwargs]
                             ++ res.2.1 ++ [.store tool.name])

/-- What `load_tool_module` yields for a module: a tool class, an
import/resolution error (recorded in `failed_tools` under the module
name), or no adaptable content at all. -/
inductive LoadResult where
  | classFound (c : ToolClass)
  | loadError (msg : String)
  | noTool

/-- A discovered module: its name (the file stem) and what loading it
yields. -/
structure ModuleDesc where
  name : String
  load : LoadResult

/-- The accumulated state of one `register_all_tools` run: registry
state, the `results` dict it returns, and the event trace. -/
structure PassState where
  reg : RegistryState
  results : List (String × Bool)
  trace : List RegEvent

/-- The body of the `for module_name in tool_modules` loop of
`register_all_tools` (lines 205-221), including the configuration gate,
`load_tool_module` (lines 44-75) and the per-module config merge. -/
def processModule (config : Option PyConfig) (init_kwargs : OptionBag)
    (ps : PassState) (m : ModuleDesc) : PassState :=
  if truthyConfig config && !is_tool_enabled config m.name then
    { ps with results := dupdate ps.results m.name false,
              trace := ps.trace ++ [.gateSkip m.name] }
  else
    match m.load with
    | .loadError e =>
        { ps with reg := { ps.reg with failed := dupdate ps.reg.failed m.name e },
                  results := dupdate ps.results m.name false,
                  trace := ps.trace ++ [.recordFailure m.name e] }
    | .noTool =>
        { ps with results := dupdate ps.results m.name false }
    | .classFound c =>
        let merged := mergedOpts config init_kwargs m.name
        let res := register_tool ps.reg c merged
        { reg := res.1,
          results := dupdate ps.results m.name res.2.1,
          trace := ps.trace ++ res.2.2 }

/-- `ToolRegistry.register_all_tools` over an already-discovered module
list. -/
def register_all_tools (ms : List ModuleDesc) (config : Option PyConfig)
    (init_kwargs : OptionBag) (ps : PassState) : PassState :=
  ms.foldl (processModule config init_kwargs) ps

/-- A freshly constructed `ToolRegistry` (`__init__`, lines 18-21)
around a fresh host runtime whose binding behaviour is `bf`. -/
def initialState (bf : List (String × String)) : PassState :=
  { reg := { mcp := { bound := [], dependencies := [], bindFailures := bf },
             tools := [], failed := [] },
    results := [], trace := [] }

/-! ## Outcome characterization

The result of `register_tool` for a given class depends only on the
class's own hook behaviour and on the static binding behaviour of the
host runtime, never on the registry state it runs in.  `registerOutcome`
computes that result; the lemmas below relate it to `register_tool`. -/
/-- The first exception raised by the binding loop on `ops`, if any. -/
def bindErr (bf : List (String × String)) : OpMap → Option String
  | [] => none
  | (n, _) :: rest =>
      match dlookup bf n with
      | some e => some e
      | none => bindErr bf rest

inductive RegOutcome where
  | success (tool : ToolInstance)
  | invalidEnv (name : String)
  | exceptionCaught (key : String) (msg : String)

/-- The outcome of `register_tool` on class `c` with options `kwargs`
against a host whose binding behaviour is `bf`. -/
def registerOutcome (bf : List (String × String)) (c : ToolClass)
    (kwargs : OptionBag) : RegOutcome :=
  match c.construct with
  | .error e => .exceptionCaught c.className e
  | .ok tool =>
      match tool.validateEnv with
      | .error e => .exceptionCaught c.className e
      | .ok false => .invalidEnv tool.name
      | .ok true =>
          match tool.initResult kwargs with
          | .error e => .exceptionCaught c.className e
          | .ok _ =>
              match tool.toolsResult with
              | .error e => .exceptionCaught c.className e
              | .ok ops =>
                  match bindErr bf ops with
                  | some e => .exceptionCaught c.className e
                  | none =>
                      match tool.depsResult with
                      | .error e => .exceptionCaught c.className e
                      | .ok _ => .success tool

/-- The per-module outcome of one iteration of the
`register_all_tools` loop, computed from static data only. -/
inductive ModOutcome where
  | gated
  | loadFailed (msg : String)
  | skippedNoTool
  | registered (o : RegOutcome)

def moduleOutcome (bf : List (String × String)) (config : Option PyConfig)
    (kwargs : OptionBag) (m : ModuleDesc) : ModOutcome :=
  if truthyConfig config && !is_tool_enabled config m.name then .gated
  else
    match m.load with
    | .loadError e => .loadFailed e
    | .noTool => .skippedNoTool
    | .classFound c =>
        .registered (registerOutcome bf c (mergedOpts config kwargs m.name))

/-- Events that belong to the post-validation registrar phase:
initialization, operation binding, and the success-table store. -/
def isActionEvent : RegEvent → Bool
  | .initCall _ _ => true
  | .bindCall _ => true
  | .store _ => true
  | _ => false

/-! ### Potential bookkeeping keys of one module

`moduleFailKey` is the key under which processing module `m` would
record a failure, `moduleSuccName` the key under which it would store a
success; both are computed from static data only. -/
def moduleFailKey (bf : List (String × String)) (config : Option PyConfig)
    (kwargs : OptionBag) (m : ModuleDesc) : Option String :=
  match moduleOutcome bf config kwargs m with
  | .gated => none
  | .skippedNoTool => none
  | .loadFailed _ => some m.name
  | .registered (.success _) => none
  | .registered (.invalidEnv n) => some n
  | .registered (.exceptionCaught k _) => some k

def moduleSuccName (bf : List (String × String)) (config : Option PyConfig)
    (kwargs : OptionBag) (m : ModuleDesc) : Option String :=
  match moduleOutcome bf config kwargs m with
  | .registered (.success tool) => some tool.name
  | _ => none

/-! ## Claim-side comparison definitions and concrete fixtures -/
/-- The operation-map semantics the specification asserts for the
legacy adapter (for comparison with `legacyGetTools`, which embeds the
source): the first accessor that exists AND yields a non-empty
mapping. -/
def legacyGetToolsClaimedAux (m : LegacyModule) : List String → OpMap
  | [] => []
  | f :: rest =>
      match dlookup m.attrs f with
      | some t => if t.isEmpty then legacyGetToolsClaimedAux m rest else t
      | none => legacyGetToolsClaimedAux m rest

def legacyGetToolsClaimed (m : LegacyModule) (module_name : String) : OpMap :=
  legacyGetToolsClaimedAux m (probeOrder module_name)

/-- Legacy module whose name-derived accessor exists but returns an
empty mapping while the generic accessor returns a non-empty one. -/
def c2module : LegacyModule :=
  { attrs := [("get_alpha_tools", []), ("get_tools", [("op", 1)])],
    DEPENDENCIES := none, initBehavior := fun _ => .ok () }

/-- Legacy module exposing only its name-derived accessor. -/
def c2only : LegacyModule :=
  { attrs := [("get_beta_tools", [("beta_op", 2)])],
    DEPENDENCIES := none, initBehavior := fun _ => .ok () }

def c3config : PyConfig :=
  { enabled_tools := some [("alpha", true), ("beta", false)],
    tool_config := none, otherKeys := false }

def c4tool : ToolInstance :=
  { name := "tool4", description := "", validateEnv := .ok false,
    initResult := fun _ => .ok (), toolsResult := .ok [], depsResult := .ok [] }

def c4class : ToolClass := { className := "C4", construct := .ok c4tool }

def c4okTool : ToolInstance :=
  { name := "tool4b", description := "", validateEnv := .ok true,
    initResult := fun _ => .ok (), toolsResult := .ok [("op4", 4)],
    depsResult := .ok [] }

def c4okClass : ToolClass := { className := "C4b", construct := .ok c4okTool }

def c4disabledConfig : PyConfig :=
  { enabled_tools := some [("other", true)], tool_config := none, otherKeys := false }

def c4disabledMod : ModuleDesc := { name := "gamma", load := .noTool }

def c5tool : ToolInstance :=
  { name := "tool5", description := "", validateEnv := .ok false,
    initResult := fun _ => .ok (), toolsResult := .ok [], depsResult := .ok [] }

def c5class : ToolClass := { className := "C5", construct := .ok c5tool }

def c6tool1 : ToolInstance :=
  { name := "X", description := "", validateEnv := .ok false,
    initResult := fun _ => .ok (), toolsResult := .ok [], depsResult := .ok [] }

def c6tool2 : ToolInstance :=
  { name := "X", description := "", validateEnv := .ok true,
    initResult := fun _ => .ok (), toolsResult := .ok [("opX", 7)],
    depsResult := .ok [] }

def c6mod1 : ModuleDesc :=
  { name := "mod1", load := .classFound { className := "C6a", construct := .ok c6tool1 } }

def c6mod2 : ModuleDesc :=
  { name := "mod2", load := .classFound { className := "C6b", construct := .ok c6tool2 } }

def c6okTool : ToolInstance :=
  { name := "Y", description := "", validateEnv := .ok true,
    initResult := fun _ => .ok (), toolsResult := .ok [("opY", 9)],
    depsResult := .ok [] }

def c6okMod : ModuleDesc :=
  { name := "mod_ok",
    load := .classFound { className := "C6ok", construct := .ok c6okTool } }

def c6badMod : ModuleDesc :=
  { name := "mod_bad", load := .loadError "import boom" }

def c1toolA : ToolInstance :=
  { name := "Alpha", description := "", validateEnv := .ok true,
    initResult := fun _ => .error "boom", toolsResult := .ok [],
    depsResult := .ok [] }

def c1toolB : ToolInstance :=
  { name := "Beta", description := "", validateEnv := .ok true,
    initResult := fun _ => .ok (), toolsResult := .ok [("beta_op", 11)],
    depsResult := .ok [] }

def c1modA : ModuleDesc :=
  { name := "alpha", load := .classFound { className := "AlphaTool", construct := .ok c1toolA } }

def c1modB : ModuleDesc :=
  { name := "beta", load := .classFound { className := "BetaTool", construct := .ok c1toolB } }

def c7config : PyConfig :=
  { enabled_tools := none,
    tool_config := some [("gamma", [("rate_limit", 100), ("api_key", 5)])],
    otherKeys := false }

def c7tool : ToolInstance :=
  { name := "Gamma", description := "", validateEnv := .ok true,
    initResult := fun _ => .ok (), toolsResult := .ok [], depsResult := .ok [] }

def c7mod : ModuleDesc :=
  { name := "gamma", load := .classFound { className := "GammaTool", construct := .ok c7tool } }

def c9goodTool : ToolInstance :=
  { name := "Good", description := "", validateEnv := .ok true,
    initResult := fun _ => .ok (), toolsResult := .ok [("g_op", 1)],
    depsResult := .ok ["requests"] }

def c9goodClass : ToolClass := { className := "GoodTool", construct := .ok c9goodTool }

def c9partialTool : ToolInstance :=
  { name := "Partial", description := "", validateEnv := .ok true,
    initResult := fun _ => .ok (),
    toolsResult := .ok [("ok_op", 1), ("bad_op", 2), ("late_op", 3)],
    depsResult := .ok [] }

def c9partialClass : ToolClass :=
  { className := "PartialTool", construct := .ok c9partialTool }

def c9bf : List (String × String) := [("bad_op", "bind boom")]

def c10legacyAbc : LegacyModule :=
  { attrs := [("get_tools", [("abc_op", 3)])],
    DEPENDENCIES := none, initBehavior := fun _ => .ok () }

def c10modAbc : ModuleDesc :=
  { name := "Abc", load := .classFound (mkLegacyClass [] "Abc" c10legacyAbc) }

def c10legacyNews : LegacyModule :=
  { attrs := [("get_news_api_tools", [("news_op", 6)])],
    DEPENDENCIES := some ["newsapi-python"], initBehavior := fun _ => .ok () }

theorem dlookup_dupdate_self {α : Type} (l : List (String × α)) (k : String) (v : α) :
    dlookup (dupdate l k v) k = some v := by
  induction l with
  | nil => simp [dlookup, dupdate]
  | cons p rest ih =>
      obtain ⟨k', v'⟩ := p
      by_cases h : k' = k
      · simp [dlookup, dupdate, h]
      · simp [dlookup, dupdate, h, ih]

theorem dlookup_dupdate_ne {α : Type} (l : List (String × α)) (k k' : String) (v : α)
    (h : k ≠ k') : dlookup (dupdate l k v) k' = dlookup l k' := by
  induction l with
  | nil => simp [dlookup, dupdate, h]
  | cons p rest ih =>
      obtain ⟨k0, v0⟩ := p
      by_cases h0 : k0 = k
      · subst h0
        simp [dlookup, dupdate, h]
      · simp only [dupdate, if_neg h0, dlookup]
        by_cases h1 : k0 = k'
        · simp [h1]
        · simp [h1, ih]

theorem dlookup_dupdate_isSome {α : Type} (l : List (String × α)) (k k' : String) (v : α)
    (h : (dlookup l k').isSome = true) :
    (dlookup (dupdate l k v) k').isSome = true := by
  by_cases hk : k = k'
  · subst hk
    simp [dlookup_dupdate_self]
  · rwa [dlookup_dupdate_ne l k k' v hk]

theorem dictMerge_nil {α : Type} (a : List (String × α)) : dictMerge a [] = a := rfl

theorem dlookup_eq_none_of_not_mem_keys {α : Type} (l : List (String × α)) (k : String)
    (h : k ∉ l.map Prod.fst) : dlookup l k = none := by
  induction l with
  | nil => rfl
  | cons p rest ih =>
      obtain ⟨k0, v0⟩ := p
      simp only [List.map_cons, List.mem_cons] at h
      push_neg at h
      have hne : ¬(k0 = k) := fun hEq => h.1 hEq.symm
      simp only [dlookup, if_neg hne]
      exact ih h.2

/-- Lookup in a Python dict merge: the right-hand dict wins on key
collision, the left-hand dict is the fallback.  The right-hand list
must have no duplicate keys, which is automatic for a list embedding a
Python dict. -/
theorem dlookup_dictMerge {α : Type} (b a : List (String × α)) (k : String)
    (hnd : (b.map Prod.fst).Nodup) :
    dlookup (dictMerge a b) k =
      match dlookup b k with
      | some v => some v
      | none => dlookup a k := by
  induction b generalizing a with
  | nil => simp [dictMerge, dlookup]
  | cons p rest ih =>
      obtain ⟨kb, vb⟩ := p
      simp only [List.map_cons, List.nodup_cons] at hnd
      have hstep : dictMerge a ((kb, vb) :: rest) = dictMerge (dupdate a kb vb) rest := rfl
      rw [hstep, ih (dupdate a kb vb) hnd.2]
      by_cases h : kb = k
      · subst h
        have hrest : dlookup rest kb = none :=
          dlookup_eq_none_of_not_mem_keys rest kb hnd.1
        simp [dlookup, hrest, dlookup_dupdate_self]
      · cases hr : dlookup rest k with
        | some v => simp [dlookup, h, hr]
        | none => simp [dlookup, h, hr, dlookup_dupdate_ne a kb k vb h]

theorem get_tool_config_of_not_truthy (config : Option PyConfig) (n : String)
    (h : truthyConfig config = false) : get_tool_config config n = [] := by
  cases config with
  | none => rfl
  | some c => simp [get_tool_config, h]

theorem mergedOpts_eq (config : Option PyConfig) (kw : OptionBag) (n : String) :
    mergedOpts config kw n = dictMerge kw (get_tool_config config n) := by
  unfold mergedOpts
  cases h : truthyConfig config with
  | false => rw [get_tool_config_of_not_truthy config n h]; simp
  | true => simp

theorem bindOps_bindFailures (m : MCP) (ops : OpMap) :
    (bindOps m ops).1.bindFailures = m.bindFailures := by
  induction ops generalizing m with
  | nil => rfl
  | cons p rest ih =>
      obtain ⟨n, f⟩ := p
      simp only [bindOps]
      cases dlookup m.bindFailures n with
      | some e => rfl
      | none => exact ih { m with bound := dupdate m.bound n f }

theorem bindOps_err (m : MCP) (ops : OpMap) :
    (bindOps m ops).2.2 = bindErr m.bindFailures ops := by
  induction ops generalizing m with
  | nil => rfl
  | cons p rest ih =>
      obtain ⟨n, f⟩ := p
      simp only [bindOps, bindErr]
      cases dlookup m.bindFailures n with
      | some e => rfl
      | none => exact ih { m with bound := dupdate m.bound n f }

theorem bindOps_bound_mono (m : MCP) (ops : OpMap) (k : String)
    (h : (dlookup m.bound k).isSome = true) :
    (dlookup (bindOps m ops).1.bound k).isSome = true := by
  induction ops generalizing m with
  | nil => exact h
  | cons p rest ih =>
      obtain ⟨n, f⟩ := p
      simp only [bindOps]
      cases dlookup m.bindFailures n with
      | some e => exact h
      | none =>
          exact ih { m with bound := dupdate m.bound n f }
            (dlookup_dupdate_isSome m.bound n k f h)

theorem bindOps_binds_all (m : MCP) (ops : OpMap)
    (h : bindErr m.bindFailures ops = none) :
    ∀ p ∈ ops, (dlookup (bindOps m ops).1.bound p.1).isSome = true := by
  induction ops generalizing m with
  | nil => intro p hp; cases hp
  | cons q rest ih =>
      obtain ⟨n, f⟩ := q
      intro p hp
      simp only [bindErr] at h
      cases hbf : dlookup m.bindFailures n with
      | some e => rw [hbf] at h; cases h
      | none =>
          rw [hbf] at h
          simp only [bindOps, hbf]
          rcases List.mem_cons.mp hp with hEq | hMem
          · subst hEq
            exact bindOps_bound_mono _ rest n
              (by simp [dlookup_dupdate_self])
          · exact ih { m with bound := dupdate m.bound n f } h p hMem

theorem bindOps_events (m : MCP) (ops : OpMap) :
    ∀ e ∈ (bindOps m ops).2.1, ∃ n, e = RegEvent.bindCall n := by
  induction ops generalizing m with
  | nil => intro e he; cases he
  | cons q rest ih =>
      obtain ⟨n, f⟩ := q
      intro e he
      simp only [bindOps] at he
      cases hbf : dlookup m.bindFailures n with
      | some err => rw [hbf] at he; cases he
      | none =>
          rw [hbf] at he
          rcases List.mem_cons.mp he with hEq | hMem
          · exact ⟨n, hEq⟩
          · exact ih { m with bound := dupdate m.bound n f } e hMem

/-- Central characterization of `register_tool`: its boolean result and
its effect on the two bookkeeping dicts are computed by
`registerOutcome` from the class behaviour and the host's static
binding behaviour alone. -/
theorem register_tool_spec (st : RegistryState) (c : ToolClass) (kwargs : OptionBag) :
    (register_tool st c kwargs).1.mcp.bindFailures = st.mcp.bindFailures ∧
    (match registerOutcome st.mcp.bindFailures c kwargs with
     | .success tool =>
         (register_tool st c kwargs).2.1 = true ∧
         (register_tool st c kwargs).1.tools = dupdate st.tools tool.name tool ∧
         (register_tool st c kwargs).1.failed = st.failed ∧
         ∃ ops, tool.toolsResult = .ok ops ∧
           ∀ p ∈ ops, (dlookup (register_tool st c kwargs).1.mcp.bound p.1).isSome = true
     | .invalidEnv n =>
         (register_tool st c kwargs).2.1 = false ∧
         (register_tool st c kwargs).1.failed =
           dupdate st.failed n "Failed environment validation" ∧
         (register_tool st c kwargs).1.tools = st.tools ∧
         (register_tool st c kwargs).1.mcp = st.mcp
     | .exceptionCaught k e =>
         (register_tool st c kwargs).2.1 = false ∧
         (register_tool st c kwargs).1.failed = dupdate st.failed k e ∧
         (register_tool st c kwargs).1.tools = st.tools) := by
  cases hc : c.construct with
  | error e => simp [register_tool, registerOutcome, hc]
  | ok tool =>
      cases hv : tool.validateEnv with
      | error e => simp [register_tool, registerOutcome, hc, hv]
      | ok b =>
          cases b with
          | false => simp [register_tool, registerOutcome, hc, hv]
          | true =>
              cases hi : tool.initResult kwargs with
              | error e => simp [register_tool, registerOutcome, hc, hv, hi]
              | ok u =>
                  cases ht : tool.toolsResult with
                  | error e => simp [register_tool, registerOutcome, hc, hv, hi, ht]
                  | ok ops =>
                      have herr := bindOps_err st.mcp ops
                      have hbf := bindOps_bindFailures st.mcp ops
                      cases hbe : bindErr st.mcp.bindFailures ops with
                      | some e =>
                          rw [hbe] at herr
                          simp [register_tool, registerOutcome, hc, hv, hi, ht,
                                hbe, herr, hbf]
                      | none =>
                          rw [hbe] at herr
                          cases hd : tool.depsResult with
                          | error e =>
                              simp [register_tool, registerOutcome, hc, hv, hi,
                                    ht, hbe, herr, hd, hbf]
                          | ok deps =>
                              refine ⟨by simp [register_tool, hc, hv, hi, ht, herr, hd, hbf], ?_⟩
                              simp only [registerOutcome, hc, hv, hi, ht, hbe, hd]
                              refine ⟨by simp [register_tool, hc, hv, hi, ht, herr, hd],
                                      by simp [register_tool, hc, hv, hi, ht, herr, hd],
                                      by simp [register_tool, hc, hv, hi, ht, herr, hd],
                                      ops, rfl, ?_⟩
                              intro p hp
                              have hall := bindOps_binds_all st.mcp ops hbe p hp
                              simp [register_tool, hc, hv, hi, ht, herr, hd]
                              exact hall

/-- `register_tool` never removes a bound operation name. -/
theorem register_tool_bound_mono (st : RegistryState) (c : ToolClass)
    (kwargs : OptionBag) (k : String)
    (h : (dlookup st.mcp.bound k).isSome = true) :
    (dlookup (register_tool st c kwargs).1.mcp.bound k).isSome = true := by
  cases hc : c.construct with
  | error e => simpa [register_tool, hc] using h
  | ok tool =>
      cases hv : tool.validateEnv with
      | error e => simpa [register_tool, hc, hv] using h
      | ok b =>
          cases b with
          | false => simpa [register_tool, hc, hv] using h
          | true =>
              cases hi : tool.initResult kwargs with
              | error e => simpa [register_tool, hc, hv, hi] using h
              | ok u =>
                  cases ht : tool.toolsResult with
                  | error e => simpa [register_tool, hc, hv, hi, ht] using h
                  | ok ops =>
                      have hmono := bindOps_bound_mono st.mcp ops k h
                      cases hbe : (bindOps st.mcp ops).2.2 with
                      | some e =>
                          simpa [register_tool, hc, hv, hi, ht, hbe] using hmono
                      | none =>
                          cases hd : tool.depsResult with
                          | error e =>
                              simpa [register_tool, hc, hv, hi, ht, hbe, hd] using hmono
                          | ok deps =>
                              simpa [register_tool, hc, hv, hi, ht, hbe, hd] using hmono

/-- Characterization of one loop iteration of `register_all_tools` in
terms of `moduleOutcome`. -/
theorem processModule_spec (config : Option PyConfig) (kwargs : OptionBag)
    (ps : PassState) (m : ModuleDesc) :
    (processModule config kwargs ps m).reg.mcp.bindFailures =
      ps.reg.mcp.bindFailures ∧
    (match moduleOutcome ps.reg.mcp.bindFailures config kwargs m with
     | .gated =>
         (processModule config kwargs ps m).reg = ps.reg ∧
         (processModule config kwargs ps m).results = dupdate ps.results m.name false
     | .loadFailed e =>
         (processModule config kwargs ps m).reg.failed =
           dupdate ps.reg.failed m.name e ∧
         (processModule config kwargs ps m).reg.tools = ps.reg.tools ∧
         (processModule config kwargs ps m).reg.mcp = ps.reg.mcp ∧
         (processModule config kwargs ps m).results = dupdate ps.results m.name false
     | .skippedNoTool =>
         (processModule config kwargs ps m).reg = ps.reg ∧
         (processModule config kwargs ps m).results = dupdate ps.results m.name false
     | .registered (.success tool) =>
         (processModule config kwargs ps m).results =
           dupdate ps.results m.name true ∧
         (processModule config kwargs ps m).reg.tools =
           dupdate ps.reg.tools tool.name tool ∧
         (processModule config kwargs ps m).reg.failed = ps.reg.failed ∧
         ∃ ops, tool.toolsResult = .ok ops ∧
           ∀ p ∈ ops,
             (dlookup (processModule config kwargs ps m).reg.mcp.bound p.1).isSome = true
     | .registered (.invalidEnv n) =>
         (processModule config kwargs ps m).results =
           dupdate ps.results m.name false ∧
         (processModule config kwargs ps m).reg.failed =
           dupdate ps.reg.failed n "Failed environment validation" ∧
         (processModule config kwargs ps m).reg.tools = ps.reg.tools ∧
         (processModule config kwargs ps m).reg.mcp = ps.reg.mcp
     | .registered (.exceptionCaught k e) =>
         (processModule config kwargs ps m).results =
           dupdate ps.results m.name false ∧
         (processModule config kwargs ps m).reg.failed =
           dupdate ps.reg.failed k e ∧
         (processModule config kwargs ps m).reg.tools = ps.reg.tools) := by
  by_cases hg : (truthyConfig config && !is_tool_enabled config m.name) = true
  · simp [processModule, moduleOutcome, hg]
  · rw [Bool.not_eq_true] at hg
    cases hl : m.load with
    | loadError e => simp [processModule, moduleOutcome, hg, hl]
    | noTool => simp [processModule, moduleOutcome, hg, hl]
    | classFound c =>
        have hspec := register_tool_spec ps.reg c (mergedOpts config kwargs m.name)
        refine ⟨by simp [processModule, hg, hl, hspec.1], ?_⟩
        simp only [moduleOutcome, hg, Bool.false_eq_true, if_false, hl]
        cases ho : registerOutcome ps.reg.mcp.bindFailures c
            (mergedOpts config kwargs m.name) with
        | success tool =>
            rw [ho] at hspec
            obtain ⟨-, hok, htools, hfailed, ops, hops, hbound⟩ := hspec
            exact ⟨by simp [processModule, hg, hl, hok],
                   by simp [processModule, hg, hl, htools],
                   by simp [processModule, hg, hl, hfailed],
                   ops, hops, by simpa [processModule, hg, hl] using hbound⟩
        | invalidEnv n =>
            rw [ho] at hspec
            obtain ⟨-, hok, hfailed, htools, hmcp⟩ := hspec
            exact ⟨by simp [processModule, hg, hl, hok],
                   by simp [processModule, hg, hl, hfailed],
                   by simp [processModule, hg, hl, htools],
                   by simp [processModule, hg, hl, hmcp]⟩
        | exceptionCaught k e =>
            rw [ho] at hspec
            obtain ⟨-, hok, hfailed, htools⟩ := hspec
            exact ⟨by simp [processModule, hg, hl, hok],
                   by simp [processModule, hg, hl, hfailed],
                   by simp [processModule, hg, hl, htools]⟩

theorem processModule_bindFailures (config : Option PyConfig) (kwargs : OptionBag)
    (ps : PassState) (m : ModuleDesc) :
    (processModule config kwargs ps m).reg.mcp.bindFailures =
      ps.reg.mcp.bindFailures :=
  (processModule_spec config kwargs ps m).1

theorem processModule_bound_mono (config : Option PyConfig) (kwargs : OptionBag)
    (ps : PassState) (m : ModuleDesc) (k : String)
    (h : (dlookup ps.reg.mcp.bound k).isSome = true) :
    (dlookup (processModule config kwargs ps m).reg.mcp.bound k).isSome = true := by
  by_cases hg : (truthyConfig config && !is_tool_enabled config m.name) = true
  · simpa [processModule, hg] using h
  · rw [Bool.not_eq_true] at hg
    cases hl : m.load with
    | loadError e => simpa [processModule, hg, hl] using h
    | noTool => simpa [processModule, hg, hl] using h
    | classFound c =>
        have := register_tool_bound_mono ps.reg c (mergedOpts config kwargs m.name) k h
        simpa [processModule, hg, hl] using this

theorem processModule_results_eq (config : Option PyConfig) (kwargs : OptionBag)
    (ps : PassState) (m : ModuleDesc) :
    ∃ b, (processModule config kwargs ps m).results = dupdate ps.results m.name b := by
  by_cases hg : (truthyConfig config && !is_tool_enabled config m.name) = true
  · exact ⟨false, by simp [processModule, hg]⟩
  · rw [Bool.not_eq_true] at hg
    cases hl : m.load with
    | loadError e => exact ⟨false, by simp [processModule, hg, hl]⟩
    | noTool => exact ⟨false, by simp [processModule, hg, hl]⟩
    | classFound c =>
        exact ⟨(register_tool ps.reg c (mergedOpts config kwargs m.name)).2.1,
               by simp [processModule, hg, hl]⟩

theorem processModule_failed_isSome (config : Option PyConfig) (kwargs : OptionBag)
    (ps : PassState) (m : ModuleDesc) (k : String)
    (h : (dlookup ps.reg.failed k).isSome = true) :
    (dlookup (processModule config kwargs ps m).reg.failed k).isSome = true := by
  have hspec := (processModule_spec config kwargs ps m).2
  cases ho : moduleOutcome ps.reg.mcp.bindFailures config kwargs m with
  | gated => rw [ho] at hspec; rw [hspec.1]; exact h
  | loadFailed e =>
      rw [ho] at hspec; rw [hspec.1]
      exact dlookup_dupdate_isSome _ _ _ _ h
  | skippedNoTool => rw [ho] at hspec; rw [hspec.1]; exact h
  | registered o =>
      cases o with
      | success tool => rw [ho] at hspec; rw [hspec.2.2.1]; exact h
      | invalidEnv n =>
          rw [ho] at hspec; rw [hspec.2.1]
          exact dlookup_dupdate_isSome _ _ _ _ h
      | exceptionCaught ke e =>
          rw [ho] at hspec; rw [hspec.2.1]
          exact dlookup_dupdate_isSome _ _ _ _ h

/-! ### Lemmas about the whole pass -/
theorem register_all_tools_append (xs ys : List ModuleDesc)
    (config : Option PyConfig) (kwargs : OptionBag) (ps : PassState) :
    register_all_tools (xs ++ ys) config kwargs ps =
      register_all_tools ys config kwargs (register_all_tools xs config kwargs ps) :=
  List.foldl_append _ _ _ _

theorem register_all_tools_bindFailures (ms : List ModuleDesc)
    (config : Option PyConfig) (kwargs : OptionBag) (ps : PassState) :
    (register_all_tools ms config kwargs ps).reg.mcp.bindFailures =
      ps.reg.mcp.bindFailures := by
  induction ms generalizing ps with
  | nil => rfl
  | cons m rest ih =>
      have hstep : register_all_tools (m :: rest) config kwargs ps =
          register_all_tools rest config kwargs (processModule config kwargs ps m) := rfl
      rw [hstep, ih, processModule_bindFailures]

theorem register_all_tools_results_isSome (ms : List ModuleDesc)
    (config : Option PyConfig) (kwargs : OptionBag) (ps : PassState) (k : String)
    (h : (dlookup ps.results k).isSome = true) :
    (dlookup (register_all_tools ms config kwargs ps).results k).isSome = true := by
  induction ms generalizing ps with
  | nil => exact h
  | cons m rest ih =>
      have hstep : register_all_tools (m :: rest) config kwargs ps =
          register_all_tools rest config kwargs (processModule config kwargs ps m) := rfl
      rw [hstep]
      obtain ⟨b, hb⟩ := processModule_results_eq config kwargs ps m
      exact ih (processModule config kwargs ps m)
        (by rw [hb]; exact dlookup_dupdate_isSome _ _ _ _ h)

/-- Every discovered module obtains an entry in the `results` dict:
the pass never stops early. -/
theorem register_all_tools_mem_results (ms : List ModuleDesc)
    (config : Option PyConfig) (kwargs : OptionBag) (ps : PassState)
    (m : ModuleDesc) (hm : m ∈ ms) :
    (dlookup (register_all_tools ms config kwargs ps).results m.name).isSome = true := by
  induction ms generalizing ps with
  | nil => cases hm
  | cons m0 rest ih =>
      have hstep : register_all_tools (m0 :: rest) config kwargs ps =
          register_all_tools rest config kwargs (processModule config kwargs ps m0) := rfl
      rw [hstep]
      rcases List.mem_cons.mp hm with hEq | hMem
      · subst hEq
        obtain ⟨b, hb⟩ := processModule_results_eq config kwargs ps m
        apply register_all_tools_results_isSome
        rw [hb]
        simp [dlookup_dupdate_self]
      · exact ih (processModule config kwargs ps m0) hMem

theorem register_all_tools_results_other (ms : List ModuleDesc)
    (config : Option PyConfig) (kwargs : OptionBag) (ps : PassState) (k : String)
    (h : ∀ m ∈ ms, m.name ≠ k) :
    dlookup (register_all_tools ms config kwargs ps).results k =
      dlookup ps.results k := by
  induction ms generalizing ps with
  | nil => rfl
  | cons m0 rest ih =>
      have hstep : register_all_tools (m0 :: rest) config kwargs ps =
          register_all_tools rest config kwargs (processModule config kwargs ps m0) := rfl
      rw [hstep, ih _ (fun m hm => h m (List.mem_cons_of_mem m0 hm))]
      obtain ⟨b, hb⟩ := processModule_results_eq config kwargs ps m0
      rw [hb, dlookup_dupdate_ne _ _ _ _ (h m0 (List.mem_cons_self m0 rest))]

theorem register_all_tools_failed_isSome (ms : List ModuleDesc)
    (config : Option PyConfig) (kwargs : OptionBag) (ps : PassState) (k : String)
    (h : (dlookup ps.reg.failed k).isSome = true) :
    (dlookup (register_all_tools ms config kwargs ps).reg.failed k).isSome = true := by
  induction ms generalizing ps with
  | nil => exact h
  | cons m0 rest ih =>
      have hstep : register_all_tools (m0 :: rest) config kwargs ps =
          register_all_tools rest config kwargs (processModule config kwargs ps m0) := rfl
      rw [hstep]
      exact ih (processModule config kwargs ps m0)
        (processModule_failed_isSome config kwargs ps m0 k h)

theorem register_all_tools_bound_mono (ms : List ModuleDesc)
    (config : Option PyConfig) (kwargs : OptionBag) (ps : PassState) (k : String)
    (h : (dlookup ps.reg.mcp.bound k).isSome = true) :
    (dlookup (register_all_tools ms config kwargs ps).reg.mcp.bound k).isSome = true := by
  induction ms generalizing ps with
  | nil => exact h
  | cons m0 rest ih =>
      have hstep : register_all_tools (m0 :: rest) config kwargs ps =
          register_all_tools rest config kwargs (processModule config kwargs ps m0) := rfl
      rw [hstep]
      exact ih (processModule config kwargs ps m0)
        (processModule_bound_mono config kwargs ps m0 k h)

/-! ### Further helper lemmas -/
theorem dlookup_dupdate_isSome_elim {α : Type} (l : List (String × α))
    (key k : String) (v : α)
    (h : (dlookup (dupdate l key v) k).isSome = true) :
    k = key ∨ (dlookup l k).isSome = true := by
  by_cases hk : k = key
  · exact Or.inl hk
  · right
    rwa [dlookup_dupdate_ne l key k v (fun hEq => hk hEq.symm)] at h

theorem dlookup_dupdate_elim {α : Type} (l : List (String × α))
    (key k : String) (v t : α)
    (h : dlookup (dupdate l key v) k = some t) :
    (k = key ∧ t = v) ∨ dlookup l k = some t := by
  by_cases hk : k = key
  · subst hk
    rw [dlookup_dupdate_self] at h
    exact Or.inl ⟨rfl, (Option.some.inj h).symm⟩
  · right
    rwa [dlookup_dupdate_ne l key k v (fun hEq => hk hEq.symm)] at h

theorem processModule_tools_isSome (config : Option PyConfig) (kwargs : OptionBag)
    (ps : PassState) (m : ModuleDesc) (k : String)
    (h : (dlookup ps.reg.tools k).isSome = true) :
    (dlookup (processModule config kwargs ps m).reg.tools k).isSome = true := by
  have hspec := (processModule_spec config kwargs ps m).2
  cases ho : moduleOutcome ps.reg.mcp.bindFailures config kwargs m with
  | gated => rw [ho] at hspec; rw [hspec.1]; exact h
  | loadFailed e => rw [ho] at hspec; rw [hspec.2.1]; exact h
  | skippedNoTool => rw [ho] at hspec; rw [hspec.1]; exact h
  | registered o =>
      cases o with
      | success tool =>
          rw [ho] at hspec
          rw [hspec.2.1]
          exact dlookup_dupdate_isSome _ _ _ _ h
      | invalidEnv n => rw [ho] at hspec; rw [hspec.2.2.1]; exact h
      | exceptionCaught ke e => rw [ho] at hspec; rw [hspec.2.2]; exact h

theorem register_all_tools_tools_isSome (ms : List ModuleDesc)
    (config : Option PyConfig) (kwargs : OptionBag) (ps : PassState) (k : String)
    (h : (dlookup ps.reg.tools k).isSome = true) :
    (dlookup (register_all_tools ms config kwargs ps).reg.tools k).isSome = true := by
  induction ms generalizing ps with
  | nil => exact h
  | cons m0 rest ih =>
      have hstep : register_all_tools (m0 :: rest) config kwargs ps =
          register_all_tools rest config kwargs (processModule config kwargs ps m0) := rfl
      rw [hstep]
      exact ih (processModule config kwargs ps m0)
        (processModule_tools_isSome config kwargs ps m0 k h)

theorem validate_precedes (t : List RegEvent)
    (h0 : ∀ e, t.get? 0 = some e → isActionEvent e = false)
    (h1 : ∀ e, t.get? 1 = some e → isActionEvent e = false)
    (h2 : ∃ nm, t.get? 2 = some (RegEvent.validateCall nm)) :
    ∀ i e, t.get? i = some e → isActionEvent e = true →
      ∃ j nm, j < i ∧ t.get? j = some (RegEvent.validateCall nm) := by
  intro i e hi ha
  obtain ⟨nm, h2⟩ := h2
  match i with
  | 0 => rw [h0 e hi] at ha; cases ha
  | 1 => rw [h1 e hi] at ha; cases ha
  | 2 =>
      rw [h2] at hi
      have he : e = RegEvent.validateCall nm := (Option.some.inj hi).symm
      subst he
      simp [isActionEvent] at ha
  | (j + 3) => exact ⟨2, nm, by omega, h2⟩

/-- Whenever validation has returned true, the trace of `register_tool`
contains the initialization call with exactly the supplied options. -/
theorem initCall_mem_trace (st : RegistryState) (c : ToolClass) (kwargs : OptionBag)
    (tool : ToolInstance) (hc : c.construct = .ok tool)
    (hv : tool.validateEnv = .ok true) :
    RegEvent.initCall tool.name kwargs ∈ (register_tool st c kwargs).2.2 := by
  cases hi : tool.initResult kwargs with
  | error e => simp [register_tool, hc, hv, hi]
  | ok u =>
      cases ht : tool.toolsResult with
      | error e => simp [register_tool, hc, hv, hi, ht]
      | ok ops =>
          cases hbe : (bindOps st.mcp ops).2.2 with
          | some e => simp [register_tool, hc, hv, hi, ht, hbe]
          | none =>
              cases hd : tool.depsResult with
              | error e => simp [register_tool, hc, hv, hi, ht, hbe, hd]
              | ok deps => simp [register_tool, hc, hv, hi, ht, hbe, hd]

/-- The binding loop raises exactly the failure of the first operation
the host refuses, when every operation before it binds cleanly. -/
theorem bindErr_append (bf : List (String × String)) (good : OpMap)
    (bad : String) (f : Func) (rest : OpMap) (e : String)
    (hgood : ∀ p ∈ good, dlookup bf p.1 = none)
    (hbad : dlookup bf bad = some e) :
    bindErr bf (good ++ (bad, f) :: rest) = some e := by
  induction good with
  | nil => simp [bindErr, hbad]
  | cons q g ih =>
      obtain ⟨n, f0⟩ := q
      have hn : dlookup bf n = none := hgood (n, f0) (List.mem_cons_self _ _)
      simp only [List.cons_append, bindErr, hn]
      exact ih (fun p hp => hgood p (List.mem_cons_of_mem _ hp))

/-- Operations handled before the raising one stay bound. -/
theorem bindOps_partial (m : MCP) (good : OpMap) (tail : OpMap)
    (hgood : ∀ p ∈ good, dlookup m.bindFailures p.1 = none) :
    ∀ p ∈ good, (dlookup (bindOps m (good ++ tail)).1.bound p.1).isSome = true := by
  induction good generalizing m with
  | nil => intro p hp; cases hp
  | cons q g ih =>
      obtain ⟨n, f0⟩ := q
      intro p hp
      have hn : dlookup m.bindFailures n = none := hgood (n, f0) (List.mem_cons_self _ _)
      simp only [List.cons_append, bindOps, hn]
      rcases List.mem_cons.mp hp with hEq | hMem
      · subst hEq
        exact bindOps_bound_mono _ _ _ (by simp [dlookup_dupdate_self])
      · exact ih { m with bound := dupdate m.bound n f0 }
          (fun q hq => hgood q (List.mem_cons_of_mem _ hq)) p hMem

/-- `LegacyToolWrapper.get_tools` returns the value of the first probed
accessor the module has. -/
theorem legacyGetToolsAux_find (m : LegacyModule) (fs : List String) :
    legacyGetToolsAux m fs =
      (match fs.find? (fun f => (dlookup m.attrs f).isSome) with
       | some f => (dlookup m.attrs f).getD []
       | none => []) := by
  induction fs with
  | nil => rfl
  | cons f rest ih =>
      cases h : dlookup m.attrs f with
      | some t => simp [legacyGetToolsAux, List.find?, h]
      | none => simp [legacyGetToolsAux, List.find?, h, ih]

theorem pyToUpper_ne_underscore (c : Char) (h : c ≠ '_') : pyToUpper c ≠ '_' := by
  unfold pyToUpper
  cases hf : casePairs.find? (fun p => p.1 = c) with
  | none => simpa using h
  | some p =>
      have hmem : p ∈ casePairs := List.mem_of_find?_eq_some hf
      have : ∀ q ∈ casePairs, q.2 ≠ '_' := by decide
      simpa using this p hmem

theorem pyToLower_ne_underscore (c : Char) (h : c ≠ '_') : pyToLower c ≠ '_' := by
  unfold pyToLower
  cases hf : casePairs.find? (fun p => p.2 = c) with
  | none => simpa using h
  | some p =>
      have hmem : p ∈ casePairs := List.mem_of_find?_eq_some hf
      have : ∀ q ∈ casePairs, q.1 ≠ '_' := by decide
      simpa using this p hmem

theorem pyTitleAux_no_underscore (l : List Char) :
    ∀ (b : Bool), (∀ c ∈ l, c ≠ '_') → ∀ c ∈ pyTitleAux b l, c ≠ '_' := by
  induction l with
  | nil => intro b _ c hc; cases hc
  | cons c0 rest ih =>
      intro b hl c hc
      have hc0 : c0 ≠ '_' := hl c0 (List.mem_cons_self _ _)
      have hrest : ∀ c ∈ rest, c ≠ '_' :=
        fun c hm => hl c (List.mem_cons_of_mem _ hm)
      by_cases ha : pyIsAlpha c0 = true
      · simp only [pyTitleAux, if_pos ha] at hc
        rcases List.mem_cons.mp hc with hEq | hMem
        · subst hEq
          cases b with
          | true => simpa using pyToLower_ne_underscore c0 hc0
          | false => simpa using pyToUpper_ne_underscore c0 hc0
        · exact ih true hrest c hMem
      · rw [Bool.not_eq_true] at ha
        simp only [pyTitleAux, ha, Bool.false_eq_true, if_false] at hc
        rcases List.mem_cons.mp hc with hEq | hMem
        · subst hEq; exact hc0
        · exact ih false hrest c hMem

theorem underscore_not_mem_legacyGetName (module_name : String) :
    '_' ∉ (legacyGetName module_name).data := by
  intro hmem
  have hsrc : ∀ c ∈ (replaceUnderscoreWithSpace module_name).data, c ≠ '_' := by
    intro c hc
    simp only [replaceUnderscoreWithSpace, List.mem_map] at hc
    obtain ⟨c0, _, hc0⟩ := hc
    by_cases h0 : c0 = '_'
    · rw [← hc0]; simp [h0]
    · rw [← hc0]; simp [h0]
  exact pyTitleAux_no_underscore _ false hsrc '_' hmem rfl

/-- Inductive invariant of the registration pass: every success-table
key is the potential success name of some module of `ms`, every
failure-map key the potential failure key of some module of `ms`, and
every stored tool has its operation names bound in the host runtime. -/
theorem pass_invariant (bf : List (String × String)) (config : Option PyConfig)
    (kwargs : OptionBag) (ms : List ModuleDesc) :
    ∀ (ms' : List ModuleDesc) (ps : PassState),
      (∀ m ∈ ms', m ∈ ms) →
      ps.reg.mcp.bindFailures = bf →
      (∀ k, (dlookup ps.reg.tools k).isSome = true →
        ∃ m ∈ ms, moduleSuccName bf config kwargs m = some k) →
      (∀ k, (dlookup ps.reg.failed k).isSome = true →
        ∃ m ∈ ms, moduleFailKey bf config kwargs m = some k) →
      (∀ k t, dlookup ps.reg.tools k = some t →
        ∃ ops, t.toolsResult = .ok ops ∧
          ∀ p ∈ ops,
            (dlookup ps.reg.mcp.bound p.1).isSome = true) →
      ((∀ k,
          (dlookup (register_all_tools ms' config kwargs ps).reg.tools k).isSome = true →
          ∃ m ∈ ms, moduleSuccName bf config kwargs m = some k) ∧
       (∀ k,
          (dlookup (register_all_tools ms' config kwargs ps).reg.failed k).isSome = true →
          ∃ m ∈ ms, moduleFailKey bf config kwargs m = some k) ∧
       (∀ k t, dlookup (register_all_tools ms' config kwargs ps).reg.tools k = some t →
          ∃ ops, t.toolsResult = .ok ops ∧
            ∀ p ∈ ops,
              (dlookup (register_all_tools ms' config kwargs ps).reg.mcp.bound p.1).isSome
                = true)) := by
  intro ms'
  induction ms' with
  | nil => intro ps _ _ hT hF hB; exact ⟨hT, hF, hB⟩
  | cons m0 rest ih =>
      intro ps hsub hbf hT hF hB
      have hm0 : m0 ∈ ms := hsub m0 (List.mem_cons_self _ _)
      have hsub' : ∀ m ∈ rest, m ∈ ms := fun m hm => hsub m (List.mem_cons_of_mem _ hm)
      have hstep : register_all_tools (m0 :: rest) config kwargs ps =
          register_all_tools rest config kwargs (processModule config kwargs ps m0) := rfl
      rw [hstep]
      have hspec := (processModule_spec config kwargs ps m0).2
      have hbf' : (processModule config kwargs ps m0).reg.mcp.bindFailures = bf := by
        rw [processModule_bindFailures, hbf]
      rw [hbf] at hspec
      -- the new bound-invariant after the step, used in every case
      have hBmono : ∀ k t, dlookup ps.reg.tools k = some t →
          ∃ ops, t.toolsResult = .ok ops ∧
            ∀ p ∈ ops,
              (dlookup (processModule config kwargs ps m0).reg.mcp.bound p.1).isSome
                = true := by
        intro k t hk
        obtain ⟨ops, hops, hb⟩ := hB k t hk
        exact ⟨ops, hops, fun p hp =>
          processModule_bound_mono config kwargs ps m0 p.1 (hb p hp)⟩
      cases ho : moduleOutcome bf config kwargs m0 with
      | gated =>
          rw [ho] at hspec
          refine ih _ hsub' hbf' ?_ ?_ ?_
          · intro k hk; rw [hspec.1] at hk; exact hT k hk
          · intro k hk; rw [hspec.1] at hk; exact hF k hk
          · intro k t hk
            rw [hspec.1] at hk
            obtain ⟨ops, hops, hb⟩ := hB k t hk
            exact ⟨ops, hops, fun p hp => by rw [hspec.1]; exact hb p hp⟩
      | skippedNoTool =>
          rw [ho] at hspec
          refine ih _ hsub' hbf' ?_ ?_ ?_
          · intro k hk; rw [hspec.1] at hk; exact hT k hk
          · intro k hk; rw [hspec.1] at hk; exact hF k hk
          · intro k t hk
            rw [hspec.1] at hk
            obtain ⟨ops, hops, hb⟩ := hB k t hk
            exact ⟨ops, hops, fun p hp => by rw [hspec.1]; exact hb p hp⟩
      | loadFailed e =>
          rw [ho] at hspec
          refine ih _ hsub' hbf' ?_ ?_ ?_
          · intro k hk; rw [hspec.2.1] at hk; exact hT k hk
          · intro k hk
            rw [hspec.1] at hk
            rcases dlookup_dupdate_isSome_elim _ _ _ _ hk with hEq | hOld
            · subst hEq
              exact ⟨m0, hm0, by simp [moduleFailKey, ho]⟩
            · exact hF k hOld
          · intro k t hk
            rw [hspec.2.1] at hk
            exact hBmono k t hk
      | registered o =>
          cases o with
          | success tool =>
              rw [ho] at hspec
              obtain ⟨hres, htools, hfailed, ops0, hops0, hbound0⟩ := hspec
              refine ih _ hsub' hbf' ?_ ?_ ?_
              · intro k hk
                rw [htools] at hk
                rcases dlookup_dupdate_isSome_elim _ _ _ _ hk with hEq | hOld
                · subst hEq
                  exact ⟨m0, hm0, by simp [moduleSuccName, ho]⟩
                · exact hT k hOld
              · intro k hk; rw [hfailed] at hk; exact hF k hk
              · intro k t hk
                rw [htools] at hk
                rcases dlookup_dupdate_elim _ _ _ _ _ hk with ⟨hEq, ht⟩ | hOld
                · subst ht
                  exact ⟨ops0, hops0, hbound0⟩
                · exact hBmono k t hOld
          | invalidEnv n =>
              rw [ho] at hspec
              refine ih _ hsub' hbf' ?_ ?_ ?_
              · intro k hk; rw [hspec.2.2.1] at hk; exact hT k hk
              · intro k hk
                rw [hspec.2.1] at hk
                rcases dlookup_dupdate_isSome_elim _ _ _ _ hk with hEq | hOld
                · subst hEq
                  exact ⟨m0, hm0, by simp [moduleFailKey, ho]⟩
                · exact hF k hOld
              · intro k t hk
                rw [hspec.2.2.1] at hk
                exact hBmono k t hk
          | exceptionCaught ke e =>
              rw [ho] at hspec
              refine ih _ hsub' hbf' ?_ ?_ ?_
              · intro k hk; rw [hspec.2.2] at hk; exact hT k hk
              · intro k hk
                rw [hspec.2.1] at hk
                rcases dlookup_dupdate_isSome_elim _ _ _ _ hk with hEq | hOld
                · subst hEq
                  exact ⟨m0, hm0, by simp [moduleFailKey, ho]⟩
                · exact hF k hOld
              · intro k t hk
                rw [hspec.2.2] at hk
                exact hBmono k t hk

/-- A success outcome always carries the very instance the class
constructed. -/
theorem registerOutcome_success_construct (bf : List (String × String)) (c : ToolClass)
    (kwargs : OptionBag) (tool : ToolInstance)
    (h : registerOutcome bf c kwargs = .success tool) :
    c.construct = .ok tool := by
  cases hc : c.construct with
  | error e =>
      unfold registerOutcome at h
      simp only [hc] at h
      cases h
  | ok t =>
      unfold registerOutcome at h
      simp only [hc] at h
      cases hv : t.validateEnv with
      | error e => simp [hv] at h
      | ok b =>
          cases b with
          | false => simp [hv] at h
          | true =>
              simp only [hv] at h
              cases hi : t.initResult kwargs with
              | error e => simp [hi] at h
              | ok u =>
                  simp only [hi] at h
                  cases ht : t.toolsResult with
                  | error e => simp [ht] at h
                  | ok ops =>
                      simp only [ht] at h
                      cases hbe : bindErr bf ops with
                      | some e => simp [hbe] at h
                      | none =>
                          simp only [hbe] at h
                          cases hd : t.depsResult with
                          | error e => simp [hd] at h
                          | ok deps =>
                              simp only [hd] at h
                              exact congrArg Except.ok (RegOutcome.success.inj h)

/-! ## The claims -/
/-- Claim C2, counterexample: the source probe loop returns the result
of the first accessor that EXISTS, with no non-emptiness check.  For a
module whose name-derived accessor exists but returns an empty mapping
while the generic `get_tools` returns a non-empty one, the adapter's
operation map is empty — not the non-empty mapping the claim's
"first accessor that exists and yields a non-empty mapping" rule would
select. -/
theorem claim_C2_counterexample :
    legacyGetTools c2module "alpha" = [] ∧
    legacyGetToolsClaimed c2module "alpha" = [("op", 1)] ∧
    legacyGetTools c2module "alpha" ≠ legacyGetToolsClaimed c2module "alpha" := by
  refine ⟨rfl, rfl, ?_⟩
  decide

/-- Claim C2, amended: the legacy adapter's operation map equals the
result of the first accessor in the probe order
(`get_<name>_tools`, `get_<name-without-underscores>_tools`,
`get_tools`) that exists — whatever that accessor returns, including an
empty mapping — and is empty when no accessor exists.  Consequently a
module whose name-derived accessor exists gets exactly that accessor's
mapping. -/
theorem claim_C2 (m : LegacyModule) (module_name : String) :
    (legacyGetTools m module_name =
      (match (probeOrder module_name).find? (fun f => (dlookup m.attrs f).isSome) with
       | some f => (dlookup m.attrs f).getD []
       | none => [])) ∧
    (∀ t, dlookup m.attrs ("get_" ++ module_name ++ "_tools") = some t →
      legacyGetTools m module_name = t) := by
  constructor
  · exact legacyGetToolsAux_find m (probeOrder module_name)
  · intro t ht
    simp [legacyGetTools, probeOrder, legacyGetToolsAux, ht]

/-- Claim C2, witness: a legacy module exposing only
`get_beta_tools()` is adapted to exactly that accessor's mapping. -/
theorem claim_C2_witness :
    legacyGetTools c2only "beta" = [("beta_op", 2)] :=
  (claim_C2 c2only "beta").2 [("beta_op", 2)] rfl

/-- Claim C3: with the gate of `register_all_tools` line 207 composed
with `config_loader.is_tool_enabled`, a module is attempted whenever
the `enabled_tools` mapping is absent or empty (including an absent or
empty configuration); once `enabled_tools` is non-empty, a module is
attempted exactly when it is explicitly mapped to `true`, and an
unmentioned module is skipped. -/
theorem claim_C3 (config : Option PyConfig) (name : String) :
    ((config = none ∨ ∃ c, config = some c ∧
        (c.enabled_tools = none ∨ c.enabled_tools = some [])) →
      gateAllows config name = true) ∧
    (∀ c et, config = some c → c.enabled_tools = some et → et ≠ [] →
      ((gateAllows config name = true ↔ dlookup et name = some true) ∧
       (dlookup et name = none → gateAllows config name = false))) := by
  constructor
  · intro h
    rcases h with h | ⟨c, hc, het⟩
    · subst h; rfl
    · subst hc
      cases htr : truthyConfig (some c) with
      | false => simp [gateAllows, htr]
      | true =>
          rcases het with het | het <;>
            simp [gateAllows, is_tool_enabled, htr, het]
  · intro c et hc het hne
    subst hc
    have htr : truthyConfig (some c) = true := by
      simp [truthyConfig, het]
    have hcond : (c.enabled_tools.isNone || decide (c.enabled_tools = some [])) = false := by
      simp [het, hne]
    have hgate : gateAllows (some c) name = (dlookup et name).getD false := by
      simp only [gateAllows, is_tool_enabled, htr, Bool.not_true, Bool.false_eq_true,
        if_false, het]
      cases hd : dlookup et name with
      | none => simp [hd, hne]
      | some b => simp [hd, hne]
    rw [hgate]
    constructor
    · cases hd : dlookup et name with
      | none => simp
      | some b => cases b <;> simp
    · intro hd; rw [hd]; rfl

/-- Claim C3, witness: the gate evaluated on concrete configurations
(absent configuration; a non-empty `enabled_tools` map hitting an
explicitly enabled module and an unmentioned one). -/
theorem claim_C3_witness :
    gateAllows none "filesystem" = true ∧
    gateAllows (some c3config) "alpha" = true ∧
    gateAllows (some c3config) "gamma" = false := by
  refine ⟨(claim_C3 none "filesystem").1 (Or.inl rfl), ?_, ?_⟩
  · exact ((claim_C3 (some c3config) "alpha").2 c3config
      [("alpha", true), ("beta", false)] rfl rfl (by decide)).1.mpr (by decide)
  · exact ((claim_C3 (some c3config) "gamma").2 c3config
      [("alpha", true), ("beta", false)] rfl rfl (by decide)).2 rfl

/-- Claim C5, counterexample: the diagnostic recorded for a module
whose validation predicate returns false is the capitalized string
"Failed environment validation" (tool_registry.py line 162), not the
claim's "failed environment validation". -/
theorem claim_C5_counterexample :
    dlookup (register_tool (initialState []).reg c5class []).1.failed "tool5" =
      some "Failed environment validation" ∧
    ("Failed environment validation" : String) ≠ "failed environment validation" := by
  refine ⟨rfl, ?_⟩
  decide

/-- Claim C5, amended: for a module whose `validate_environment()`
returns false, `register_tool` records it in the failure map under its
tool name with the fixed diagnostic "Failed environment validation"
(with a capital F), does not invoke its initialization hook, binds none
of its operations (registry state and host runtime are otherwise
untouched), and returns false. -/
theorem claim_C5 (st : RegistryState) (c : ToolClass) (kwargs : OptionBag)
    (tool : ToolInstance) (hc : c.construct = .ok tool)
    (hv : tool.validateEnv = .ok false) :
    register_tool st c kwargs =
      ({ st with failed := dupdate st.failed tool.name "Failed environment validation" },
       false,
       [.instantiate c.className, .setMcp tool.name, .validateCall tool.name,
        .recordFailure tool.name "Failed environment validation"]) := by
  simp [register_tool, hc, hv]

/-- Claim C5, witness: the amended statement evaluated on a concrete
invalid tool. -/
theorem claim_C5_witness :
    register_tool (initialState []).reg c5class [] =
      ({ (initialState []).reg with
           failed := dupdate (initialState []).reg.failed "tool5"
             "Failed environment validation" },
       false,
       [.instantiate "C5", .setMcp "tool5", .validateCall "tool5",
        .recordFailure "tool5" "Failed environment validation"]) :=
  claim_C5 (initialState []).reg c5class [] c5tool rfl rfl

/-- Claim C8, counterexample: `BaseTool.get_dependencies` carries the
`@abstractmethod` decorator (base_tool.py lines 40-43); no default
empty dependency list is provided, so a class omitting it cannot be
instantiated.  Only `initialize`, `cleanup` and `validate_environment`
have default bodies. -/
theorem claim_C8_counterexample :
    "get_dependencies" ∈ baseToolAbstractMethods ∧
    "get_dependencies" ∉ baseToolDefaultedMethods := by
  decide

/-- Claim C8, amended: a `BaseTool` subclass inherits defaults for
exactly `initialize` (marks the instance initialized and succeeds),
`cleanup` (does nothing) and `validate_environment` (returns true);
`get_name`, `get_description`, `get_tools` and `get_dependencies` are
abstract and must be overridden — in particular no default empty
dependency list exists. -/
theorem claim_C8 (s : ToolSelf) (kw : OptionBag) :
    (baseInitializeDefault s kw).initialized = true ∧
    baseCleanupDefault s = s ∧
    baseValidateEnvironmentDefault = true ∧
    "initialize" ∈ baseToolDefaultedMethods ∧
    "cleanup" ∈ baseToolDefaultedMethods ∧
    "validate_environment" ∈ baseToolDefaultedMethods ∧
    "get_dependencies" ∉ baseToolDefaultedMethods ∧
    "get_dependencies" ∈ baseToolAbstractMethods := by
  refine ⟨rfl, rfl, rfl, by decide, by decide, by decide, by decide, by decide⟩

/-- Claim C10, counterexample: `"Abc".replace("_", " ").title()` is
`"Abc"` itself, so a legacy module named `Abc` is stored in the success
set under its raw module name — the claim's "the raw module name is
never the key" fails. -/
theorem claim_C10_counterexample :
    legacyGetName "Abc" = "Abc" ∧
    (dlookup (register_all_tools [c10modAbc] none []
        (initialState [])).reg.tools "Abc").isSome = true := by
  exact ⟨rfl, rfl⟩

/-- Claim C10, amended: a successfully registered legacy module is
stored under `module_name.replace("_", " ").title()` and its
description is `"Legacy tool: " + module_name`; whenever the module
name contains an underscore the stored key differs from the raw module
name (a name that is already in title form, e.g. "Abc", is stored
under itself). -/
theorem claim_C10 (st : RegistryState) (env : List String) (m : LegacyModule)
    (module_name : String) (kwargs : OptionBag)
    (hsucc : (register_tool st (mkLegacyClass env module_name m) kwargs).2.1 = true) :
    (register_tool st (mkLegacyClass env module_name m) kwargs).1.tools =
      dupdate st.tools (legacyGetName module_name)
        (mkLegacyInstance env module_name m) ∧
    (mkLegacyInstance env module_name m).description =
      "Legacy tool: " ++ module_name ∧
    ('_' ∈ module_name.data → legacyGetName module_name ≠ module_name) := by
  have hspec := register_tool_spec st (mkLegacyClass env module_name m) kwargs
  refine ⟨?_, rfl, ?_⟩
  · cases ho : registerOutcome st.mcp.bindFailures (mkLegacyClass env module_name m)
        kwargs with
    | success tool =>
        rw [ho] at hspec
        have hctor := registerOutcome_success_construct _ _ _ _ ho
        have htool : tool = mkLegacyInstance env module_name m := by
          have h2 : (Except.ok (mkLegacyInstance env module_name m) :
              Except String ToolInstance) = Except.ok tool := hctor
          exact (Except.ok.inj h2).symm
        rw [htool] at hspec
        exact hspec.2.2.1
    | invalidEnv n =>
        rw [ho] at hspec
        rw [hspec.2.1] at hsucc
        cases hsucc
    | exceptionCaught ke e =>
        rw [ho] at hspec
        rw [hspec.2.1] at hsucc
        cases hsucc
  · intro hmem hEq
    have hno := underscore_not_mem_legacyGetName module_name
    rw [hEq] at hno
    exact hno hmem

/-- Vacuous case of the validation-ordering property: a trace without
action events satisfies it. -/
theorem no_action_case (t : List RegEvent)
    (hall : ∀ e ∈ t, isActionEvent e = false) :
    ∀ i e, t.get? i = some e → isActionEvent e = true →
      ∃ j nm, j < i ∧ t.get? j = some (RegEvent.validateCall nm) := by
  intro i e hi ha
  rw [hall e (List.get?_mem hi)] at ha
  cases ha

/-- Once instantiation succeeds, the trace of `register_tool` always
begins with instantiation, the host-reference binding, and the
validation call, in that order. -/
theorem register_tool_trace_shape (st : RegistryState) (c : ToolClass)
    (kwargs : OptionBag) (tool : ToolInstance) (hc : c.construct = .ok tool) :
    ∃ rest, (register_tool st c kwargs).2.2 =
      RegEvent.instantiate c.className :: RegEvent.setMcp tool.name ::
        RegEvent.validateCall tool.name :: rest := by
  cases hv : tool.validateEnv with
  | error e => exact ⟨_, by simp [register_tool, hc, hv]; rfl⟩
  | ok b =>
      cases b with
      | false => exact ⟨_, by simp [register_tool, hc, hv]; rfl⟩
      | true =>
          cases hi : tool.initResult kwargs with
          | error e => exact ⟨_, by simp [register_tool, hc, hv, hi]; rfl⟩
          | ok u =>
              cases ht : tool.toolsResult with
              | error e => exact ⟨_, by simp [register_tool, hc, hv, hi, ht]; rfl⟩
              | ok ops =>
                  cases hbe : (bindOps st.mcp ops).2.2 with
                  | some e => exact ⟨_, by simp [register_tool, hc, hv, hi, ht, hbe]; rfl⟩
                  | none =>
                      cases hd : tool.depsResult with
                      | error e =>
                          exact ⟨_, by simp [register_tool, hc, hv, hi, ht, hbe, hd]; rfl⟩
                      | ok deps =>
                          exact ⟨_, by simp [register_tool, hc, hv, hi, ht, hbe, hd]; rfl⟩

/-- Claim C4, counterexample: the host-runtime reference is bound into
the capability object (`tool.set_mcp(self.mcp)`, tool_registry.py line
157) BEFORE the validation predicate is invoked (line 160).  In this
concrete run validation never returns true, yet the `setMcp` event
already appears at index 1, ahead of the `validateCall` event at
index 2 — refuting "the host-runtime reference is bound ... only after
the module's validation predicate has been invoked and has returned
true". -/
theorem claim_C4_counterexample :
    (register_tool (initialState []).reg c4class []).2.2 =
      [RegEvent.instantiate "C4", RegEvent.setMcp "tool4",
       RegEvent.validateCall "tool4",
       RegEvent.recordFailure "tool4" "Failed environment validation"] ∧
    c4tool.validateEnv = .ok false := by
  exact ⟨rfl, rfl⟩

/-- Claim C4, amended: environment validation still runs strictly
after the configuration gate (a gated module produces no events at
all beyond the skip marker) and strictly before initialization,
operation binding and the success store — but the host-runtime
reference is bound into the capability object (`set_mcp`) BEFORE
validation, not after.  Part 1: any initialization, binding or store
event is preceded by a validation call.  Part 2: if validation does
not return true, no such event occurs.  Part 3: a module disabled by
the gate is skipped outright and never validated. -/
theorem claim_C4 :
    (∀ (st : RegistryState) (c : ToolClass) (kwargs : OptionBag) (i : Nat) (e : RegEvent),
       ((register_tool st c kwargs).2.2).get? i = some e → isActionEvent e = true →
       ∃ j nm, j < i ∧
         ((register_tool st c kwargs).2.2).get? j = some (RegEvent.validateCall nm)) ∧
    (∀ (st : RegistryState) (c : ToolClass) (kwargs : OptionBag) (tool : ToolInstance),
       c.construct = .ok tool → tool.validateEnv ≠ .ok true →
       ∀ e ∈ (register_tool st c kwargs).2.2, isActionEvent e = false) ∧
    (∀ (config : Option PyConfig) (kwargs : OptionBag) (ps : PassState) (m : ModuleDesc),
       (truthyConfig config && !is_tool_enabled config m.name) = true →
       processModule config kwargs ps m =
         { ps with results := dupdate ps.results m.name false,
                   trace := ps.trace ++ [RegEvent.gateSkip m.name] }) := by
  refine ⟨?_, ?_, ?_⟩
  · intro st c kwargs
    cases hc : c.construct with
    | error e =>
        apply no_action_case
        intro ev hev
        simp [register_tool, hc] at hev
        rcases hev with rfl | rfl <;> rfl
    | ok tool =>
        obtain ⟨rest, hshape⟩ := register_tool_trace_shape st c kwargs tool hc
        rw [hshape]
        apply validate_precedes
        · intro e h
          injection h with h'
          rw [← h']
          rfl
        · intro e h
          injection h with h'
          rw [← h']
          rfl
        · exact ⟨tool.name, rfl⟩
  · intro st c kwargs tool hc hval ev hev
    cases hv : tool.validateEnv with
    | error e =>
        simp [register_tool, hc, hv] at hev
        rcases hev with rfl | rfl | rfl | rfl <;> rfl
    | ok b =>
        cases b with
        | false =>
            simp [register_tool, hc, hv] at hev
            rcases hev with rfl | rfl | rfl | rfl <;> rfl
        | true => exact absurd hv hval
  · intro config kwargs ps m hg
    simp [processModule, hg]

/-- Claim C4, witness: all three parts evaluated on concrete runs — a
successful registration whose init event at index 3 is preceded by the
validation call, an invalid tool whose whole trace is free of registrar
action events, and a config-disabled module reduced to a pure skip. -/
theorem claim_C4_witness :
    (∃ j nm, j < 3 ∧
       ((register_tool (initialState []).reg c4okClass []).2.2).get? j =
         some (RegEvent.validateCall nm)) ∧
    (∀ e ∈ (register_tool (initialState []).reg c4class []).2.2,
       isActionEvent e = false) ∧
    processModule (some c4disabledConfig) [] (initialState []) c4disabledMod =
      { initialState [] with
          results := dupdate (initialState []).results "gamma" false,
          trace := (initialState []).trace ++ [RegEvent.gateSkip "gamma"] } := by
  refine ⟨?_, ?_, ?_⟩
  · exact claim_C4.1 (initialState []).reg c4okClass [] 3
      (RegEvent.initCall "tool4b" []) rfl rfl
  · exact claim_C4.2.1 (initialState []).reg c4class [] c4tool rfl
      (fun h => Bool.noConfusion (Except.ok.inj h))
  · exact claim_C4.2.2 (some c4disabledConfig) [] (initialState []) c4disabledMod rfl

/-- Claim C7: a module that passes the gate, loads, and passes
validation has its initialization hook invoked with exactly
`{**init_kwargs, **tool_config}` — the caller-supplied global
parameters merged with the module's `tool_config` entry, the
per-module entry winning on key collision. -/
theorem claim_C7 (config : Option PyConfig) (kwargs : OptionBag) (ps : PassState)
    (m : ModuleDesc) (c : ToolClass) (tool : ToolInstance)
    (hl : m.load = .classFound c)
    (hg : (truthyConfig config && !is_tool_enabled config m.name) = false)
    (hc : c.construct = .ok tool)
    (hv : tool.validateEnv = .ok true) :
    (∃ evs, (processModule config kwargs ps m).trace = ps.trace ++ evs ∧
       RegEvent.initCall tool.name (mergedOpts config kwargs m.name) ∈ evs) ∧
    mergedOpts config kwargs m.name =
      dictMerge kwargs (get_tool_config config m.name) ∧
    (((get_tool_config config m.name).map Prod.fst).Nodup →
      ∀ k, (∀ v, dlookup (get_tool_config config m.name) k = some v →
              dlookup (mergedOpts config kwargs m.name) k = some v) ∧
           (dlookup (get_tool_config config m.name) k = none →
              dlookup (mergedOpts config kwargs m.name) k = dlookup kwargs k)) := by
  refine ⟨?_, mergedOpts_eq config kwargs m.name, ?_⟩
  · refine ⟨(register_tool ps.reg c (mergedOpts config kwargs m.name)).2.2, ?_, ?_⟩
    · simp [processModule, hg, hl]
    · exact initCall_mem_trace ps.reg c (mergedOpts config kwargs m.name) tool hc hv
  · intro hnd k
    have hm := dlookup_dictMerge (get_tool_config config m.name) kwargs k hnd
    rw [mergedOpts_eq]
    constructor
    · intro v hvk
      rw [hm, hvk]
    · intro hnone
      rw [hm, hnone]

/-- Claim C7, witness: with global options
`[("api_key", 1), ("timeout", 9)]` and tool_config
`[("rate_limit", 100), ("api_key", 5)]` for module `gamma`, the
initialization hook receives the merge in which the per-module
`api_key` wins. -/
theorem claim_C7_witness :
    (∃ evs, (processModule (some c7config) [("api_key", 1), ("timeout", 9)]
        (initialState []) c7mod).trace = (initialState []).trace ++ evs ∧
       RegEvent.initCall "Gamma"
         (mergedOpts (some c7config) [("api_key", 1), ("timeout", 9)] "gamma") ∈ evs) ∧
    mergedOpts (some c7config) [("api_key", 1), ("timeout", 9)] "gamma" =
      dictMerge [("api_key", 1), ("timeout", 9)]
        (get_tool_config (some c7config) "gamma") ∧
    (((get_tool_config (some c7config) "gamma").map Prod.fst).Nodup →
      ∀ k, (∀ v, dlookup (get_tool_config (some c7config) "gamma") k = some v →
              dlookup (mergedOpts (some c7config)
                [("api_key", 1), ("timeout", 9)] "gamma") k = some v) ∧
           (dlookup (get_tool_config (some c7config) "gamma") k = none →
              dlookup (mergedOpts (some c7config)
                  [("api_key", 1), ("timeout", 9)] "gamma") k =
                dlookup [("api_key", 1), ("timeout", 9)] k)) :=
  claim_C7 (some c7config) [("api_key", 1), ("timeout", 9)] (initialState [])
    c7mod { className := "GammaTool", construct := .ok c7tool } c7tool rfl rfl rfl rfl

/-- All the components of a success outcome. -/
theorem registerOutcome_success_elim (bf : List (String × String)) (c : ToolClass)
    (kwargs : OptionBag) (tool : ToolInstance)
    (h : registerOutcome bf c kwargs = .success tool) :
    c.construct = .ok tool ∧ tool.validateEnv = .ok true ∧
    tool.initResult kwargs = .ok () ∧
    (∃ ops, tool.toolsResult = .ok ops ∧ bindErr bf ops = none) ∧
    (∃ deps, tool.depsResult = .ok deps) := by
  have hctor := registerOutcome_success_construct bf c kwargs tool h
  unfold registerOutcome at h
  rw [hctor] at h
  simp only at h
  cases hv : tool.validateEnv with
  | error e => simp [hv] at h
  | ok b =>
      cases b with
      | false => simp [hv] at h
      | true =>
          simp only [hv] at h
          cases hi : tool.initResult kwargs with
          | error e => simp [hi] at h
          | ok u =>
              simp only [hi] at h
              cases ht : tool.toolsResult with
              | error e => simp [ht] at h
              | ok ops =>
                  simp only [ht] at h
                  cases hbe : bindErr bf ops with
                  | some e => simp [hbe] at h
                  | none =>
                      cases hd : tool.depsResult with
                      | error e => simp [hbe, hd] at h
                      | ok deps =>
                          cases u
                          exact ⟨hctor, rfl, rfl, ⟨ops, rfl, hbe⟩, ⟨deps, rfl⟩⟩

/-- Claim C9: success-table membership implies every registration step
completed without exception (part 1); but when the host raises partway
through the binding loop, the operations bound before the raise stay
bound even though the module lands in the failure map — partial
bindings are not rolled back (part 2). -/
theorem claim_C9 (st : RegistryState) (c : ToolClass) (kwargs : OptionBag) :
    ((register_tool st c kwargs).2.1 = true →
      ∃ tool ops deps, c.construct = .ok tool ∧ tool.validateEnv = .ok true ∧
        tool.initResult kwargs = .ok () ∧ tool.toolsResult = .ok ops ∧
        bindErr st.mcp.bindFailures ops = none ∧ tool.depsResult = .ok deps ∧
        dlookup (register_tool st c kwargs).1.tools tool.name = some tool) ∧
    (∀ (tool : ToolInstance) (good : OpMap) (bad : String) (f : Func) (e : String)
        (rest : OpMap),
      c.construct = .ok tool → tool.validateEnv = .ok true →
      tool.initResult kwargs = .ok () →
      tool.toolsResult = .ok (good ++ (bad, f) :: rest) →
      (∀ p ∈ good, dlookup st.mcp.bindFailures p.1 = none) →
      dlookup st.mcp.bindFailures bad = some e →
      ((register_tool st c kwargs).2.1 = false ∧
       dlookup (register_tool st c kwargs).1.failed c.className = some e ∧
       (∀ p ∈ good,
         (dlookup (register_tool st c kwargs).1.mcp.bound p.1).isSome = true) ∧
       (register_tool st c kwargs).1.tools = st.tools)) := by
  constructor
  · intro hsucc
    have hspec := register_tool_spec st c kwargs
    cases ho : registerOutcome st.mcp.bindFailures c kwargs with
    | success tool =>
        rw [ho] at hspec
        obtain ⟨hctor, hval, hinit, ⟨ops, hops, hbe⟩, ⟨deps, hdeps⟩⟩ :=
          registerOutcome_success_elim _ _ _ _ ho
        refine ⟨tool, ops, deps, hctor, hval, hinit, hops, hbe, hdeps, ?_⟩
        rw [hspec.2.2.1]
        exact dlookup_dupdate_self _ _ _
    | invalidEnv n =>
        rw [ho] at hspec
        rw [hspec.2.1] at hsucc
        cases hsucc
    | exceptionCaught ke e =>
        rw [ho] at hspec
        rw [hspec.2.1] at hsucc
        cases hsucc
  · intro tool good bad f e rest hc hv hi ht hgood hbad
    have hbe : bindErr st.mcp.bindFailures (good ++ (bad, f) :: rest) = some e :=
      bindErr_append st.mcp.bindFailures good bad f rest e hgood hbad
    have herr : (bindOps st.mcp (good ++ (bad, f) :: rest)).2.2 = some e := by
      rw [bindOps_err]
      exact hbe
    refine ⟨?_, ?_, ?_, ?_⟩
    · simp [register_tool, hc, hv, hi, ht, herr]
    · simp only [register_tool, hc, hv, hi, ht, herr]
      exact dlookup_dupdate_self _ _ _
    · intro p hp
      have hpart := bindOps_partial st.mcp good ((bad, f) :: rest) hgood p hp
      simp only [register_tool, hc, hv, hi, ht, herr]
      exact hpart
    · simp [register_tool, hc, hv, hi, ht, herr]

/-- Claim C9, witness: part 1 on a fully successful concrete tool;
part 2 on a concrete tool whose second operation raises at binding —
the first operation stays bound, the class lands in the failure map,
and the success table is untouched. -/
theorem claim_C9_witness :
    (∃ tool ops deps, c9goodClass.construct = .ok tool ∧
       tool.validateEnv = .ok true ∧ tool.initResult [] = .ok () ∧
       tool.toolsResult = .ok ops ∧
       bindErr (initialState []).reg.mcp.bindFailures ops = none ∧
       tool.depsResult = .ok deps ∧
       dlookup (register_tool (initialState []).reg c9goodClass []).1.tools
         tool.name = some tool) ∧
    ((register_tool (initialState c9bf).reg c9partialClass []).2.1 = false ∧
     dlookup (register_tool (initialState c9bf).reg c9partialClass []).1.failed
       "PartialTool" = some "bind boom" ∧
     (∀ p ∈ ([("ok_op", 1)] : OpMap),
       (dlookup (register_tool (initialState c9bf).reg
           c9partialClass []).1.mcp.bound p.1).isSome = true) ∧
     (register_tool (initialState c9bf).reg c9partialClass []).1.tools =
       (initialState c9bf).reg.tools) := by
  constructor
  · exact (claim_C9 (initialState []).reg c9goodClass []).1 rfl
  · exact (claim_C9 (initialState c9bf).reg c9partialClass []).2 c9partialTool
      [("ok_op", 1)] "bad_op" 2 "bind boom" [("late_op", 3)]
      rfl rfl rfl rfl (by decide) rfl

/-- Claim C1: when registering module A raises at any step, the
exception is contained at the module boundary: A's result is recorded
as false, A is recorded in the failure map with the exception's message
(a record that survives to the end of the pass), every module after A
still receives a result, and a later module B whose own registration
succeeds (its name not reused later) ends with result true and its
tool stored.  The pass itself is a total function of the module list —
it never propagates a module's exception. -/
theorem claim_C1 (config : Option PyConfig) (kwargs : OptionBag)
    (bf : List (String × String)) (ms1 ms2 : List ModuleDesc) (A : ModuleDesc)
    (cA : ToolClass) (key msg : String)
    (hgA : (truthyConfig config && !is_tool_enabled config A.name) = false)
    (hlA : A.load = .classFound cA)
    (hout : registerOutcome bf cA (mergedOpts config kwargs A.name) =
      .exceptionCaught key msg) :
    (dlookup (register_all_tools (ms1 ++ [A]) config kwargs
        (initialState bf)).results A.name = some false) ∧
    (dlookup (register_all_tools (ms1 ++ [A]) config kwargs
        (initialState bf)).reg.failed key = some msg) ∧
    ((dlookup (register_all_tools (ms1 ++ A :: ms2) config kwargs
        (initialState bf)).reg.failed key).isSome = true) ∧
    (∀ B ∈ ms2, (dlookup (register_all_tools (ms1 ++ A :: ms2) config kwargs
        (initialState bf)).results B.name).isSome = true) ∧
    (∀ (bs1 : List ModuleDesc) (B : ModuleDesc) (bs2 : List ModuleDesc)
        (cB : ToolClass) (toolB : ToolInstance),
       ms2 = bs1 ++ B :: bs2 →
       (∀ m' ∈ bs2, m'.name ≠ B.name) →
       (truthyConfig config && !is_tool_enabled config B.name) = false →
       B.load = .classFound cB →
       registerOutcome bf cB (mergedOpts config kwargs B.name) = .success toolB →
       dlookup (register_all_tools (ms1 ++ A :: ms2) config kwargs
           (initialState bf)).results B.name = some true ∧
       (dlookup (register_all_tools (ms1 ++ A :: ms2) config kwargs
           (initialState bf)).reg.tools toolB.name).isSome = true) := by
  have hbf1 : (register_all_tools ms1 config kwargs (initialState bf)).reg.mcp.bindFailures
      = bf := register_all_tools_bindFailures ms1 config kwargs (initialState bf)
  -- the state after ms1, and the step on A
  have hmid : register_all_tools (ms1 ++ [A]) config kwargs (initialState bf) =
      processModule config kwargs
        (register_all_tools ms1 config kwargs (initialState bf)) A := by
    rw [register_all_tools_append]
    rfl
  have hspecA := (processModule_spec config kwargs
      (register_all_tools ms1 config kwargs (initialState bf)) A).2
  have hoA : moduleOutcome (register_all_tools ms1 config kwargs
      (initialState bf)).reg.mcp.bindFailures config kwargs A =
      .registered (.exceptionCaught key msg) := by
    rw [hbf1]
    simp [moduleOutcome, hgA, hlA, hout]
  rw [hoA] at hspecA
  have hresA : dlookup (register_all_tools (ms1 ++ [A]) config kwargs
      (initialState bf)).results A.name = some false := by
    rw [hmid, hspecA.1]
    exact dlookup_dupdate_self _ _ _
  have hfailA : dlookup (register_all_tools (ms1 ++ [A]) config kwargs
      (initialState bf)).reg.failed key = some msg := by
    rw [hmid, hspecA.2.1]
    exact dlookup_dupdate_self _ _ _
  have hsplit : ms1 ++ A :: ms2 = (ms1 ++ [A]) ++ ms2 := by
    simp [List.append_assoc]
  have hfin : register_all_tools (ms1 ++ A :: ms2) config kwargs (initialState bf) =
      register_all_tools ms2 config kwargs
        (register_all_tools (ms1 ++ [A]) config kwargs (initialState bf)) := by
    rw [hsplit, register_all_tools_append]
  refine ⟨hresA, hfailA, ?_, ?_, ?_⟩
  · rw [hfin]
    exact register_all_tools_failed_isSome ms2 config kwargs _ key
      (by rw [hfailA]; rfl)
  · intro B hB
    rw [hfin]
    exact register_all_tools_mem_results ms2 config kwargs _ B hB
  · intro bs1 B bs2 cB toolB hms2 hafter hgB hlB houtB
    have hbfB : (register_all_tools bs1 config kwargs
        (register_all_tools (ms1 ++ [A]) config kwargs
          (initialState bf))).reg.mcp.bindFailures = bf := by
      rw [register_all_tools_bindFailures]
      rw [hmid, processModule_bindFailures, hbf1]
    have hfin2 : register_all_tools (ms1 ++ A :: ms2) config kwargs (initialState bf) =
        register_all_tools bs2 config kwargs
          (processModule config kwargs
            (register_all_tools bs1 config kwargs
              (register_all_tools (ms1 ++ [A]) config kwargs (initialState bf))) B) := by
      rw [hfin, hms2, register_all_tools_append]
      rfl
    have hspecB := (processModule_spec config kwargs
        (register_all_tools bs1 config kwargs
          (register_all_tools (ms1 ++ [A]) config kwargs (initialState bf))) B).2
    have hoB : moduleOutcome (register_all_tools bs1 config kwargs
        (register_all_tools (ms1 ++ [A]) config kwargs
          (initialState bf))).reg.mcp.bindFailures config kwargs B =
        .registered (.success toolB) := by
      rw [hbfB]
      simp [moduleOutcome, hgB, hlB, houtB]
    rw [hoB] at hspecB
    constructor
    · rw [hfin2, register_all_tools_results_other bs2 config kwargs _ B.name hafter,
        hspecB.1]
      exact dlookup_dupdate_self _ _ _
    · rw [hfin2]
      apply register_all_tools_tools_isSome
      rw [hspecB.2.1]
      rw [dlookup_dupdate_self]
      rfl

/-- Claim C1, witness: module `alpha` raises "boom" in its
initialization hook; module `beta`, processed after it, still
registers successfully — `alpha` is in the failure map under its class
name with the message, `beta` has result true and its tool in the
success table. -/
theorem claim_C1_witness :
    (dlookup (register_all_tools ([] ++ [c1modA]) none []
        (initialState [])).results "alpha" = some false) ∧
    (dlookup (register_all_tools ([] ++ [c1modA]) none []
        (initialState [])).reg.failed "AlphaTool" = some "boom") ∧
    ((dlookup (register_all_tools ([] ++ c1modA :: [c1modB]) none []
        (initialState [])).reg.failed "AlphaTool").isSome = true) ∧
    (∀ B ∈ [c1modB], (dlookup (register_all_tools ([] ++ c1modA :: [c1modB]) none []
        (initialState [])).results B.name).isSome = true) ∧
    (dlookup (register_all_tools ([] ++ c1modA :: [c1modB]) none []
        (initialState [])).results "beta" = some true ∧
     (dlookup (register_all_tools ([] ++ c1modA :: [c1modB]) none []
        (initialState [])).reg.tools "Beta").isSome = true) := by
  have h := claim_C1 none [] [] [] [c1modB] c1modA
    { className := "AlphaTool", construct := .ok c1toolA } "AlphaTool" "boom"
    rfl rfl rfl
  refine ⟨h.1, h.2.1, h.2.2.1, h.2.2.2.1, ?_⟩
  exact h.2.2.2.2 [] c1modB [] { className := "BetaTool", construct := .ok c1toolB }
    c1toolB rfl (by intro m' hm'; cases hm') rfl rfl rfl

/-- Claim C6, counterexample: two modules whose tools share the display
name "X" — the first fails validation and is recorded in the failure
map under "X", the second succeeds and is stored in the success table
under "X".  After the pass the name "X" is in BOTH collections,
refuting the unconditional "a module name appears in at most one of
the success set and the failure map". -/
theorem claim_C6_counterexample :
    (dlookup (register_all_tools [c6mod1, c6mod2] none []
        (initialState [])).reg.tools "X").isSome = true ∧
    (dlookup (register_all_tools [c6mod1, c6mod2] none []
        (initialState [])).reg.failed "X").isSome = true := by
  exact ⟨rfl, rfl⟩

/-- Claim C6, amended: provided no failure key recorded for one module
coincides with the success name of another (automatic when display
names are distinct), then at every point during and after the pass a
name appears in at most one of the success table and the failure map;
and — unconditionally — every tool in the success table has its
operation map's every name bound in the host runtime. -/
theorem claim_C6 (bf : List (String × String)) (config : Option PyConfig)
    (kwargs : OptionBag) (ms : List ModuleDesc)
    (H : ∀ m1 ∈ ms, ∀ m2 ∈ ms,
      moduleFailKey bf config kwargs m1 ≠ moduleSuccName bf config kwargs m2 ∨
      moduleFailKey bf config kwargs m1 = none) :
    ∀ n : Nat,
      (∀ k, ¬((dlookup (register_all_tools (ms.take n) config kwargs
            (initialState bf)).reg.tools k).isSome = true ∧
          (dlookup (register_all_tools (ms.take n) config kwargs
            (initialState bf)).reg.failed k).isSome = true)) ∧
      (∀ k t, dlookup (register_all_tools (ms.take n) config kwargs
            (initialState bf)).reg.tools k = some t →
        ∃ ops, t.toolsResult = .ok ops ∧
          ∀ p ∈ ops,
            (dlookup (register_all_tools (ms.take n) config kwargs
              (initialState bf)).reg.mcp.bound p.1).isSome = true) := by
  intro n
  have hsub : ∀ m ∈ ms.take n, m ∈ ms := fun m hm => List.take_subset n ms hm
  have hinv := pass_invariant bf config kwargs ms (ms.take n) (initialState bf)
    hsub rfl
    (fun k hk => by cases hk)
    (fun k hk => by cases hk)
    (fun k t hk => by cases hk)
  obtain ⟨hT, hF, hB⟩ := hinv
  refine ⟨?_, hB⟩
  intro k ⟨hk1, hk2⟩
  obtain ⟨m2, hm2, hs⟩ := hT k hk1
  obtain ⟨m1, hm1, hf⟩ := hF k hk2
  rcases H m1 hm1 m2 hm2 with hne | hnone
  · exact hne (hf.trans hs.symm)
  · rw [hnone] at hf
    cases hf

/-- Claim C6, witness: the amended invariant on a concrete pass of two
modules with distinct names (one import failure, one success), checked
at every prefix length. -/
theorem claim_C6_witness :
    (∀ k, ¬((dlookup (register_all_tools ([c6badMod, c6okMod].take 2) none []
          (initialState [])).reg.tools k).isSome = true ∧
        (dlookup (register_all_tools ([c6badMod, c6okMod].take 2) none []
          (initialState [])).reg.failed k).isSome = true)) ∧
    (∀ k t, dlookup (register_all_tools ([c6badMod, c6okMod].take 2) none []
          (initialState [])).reg.tools k = some t →
      ∃ ops, t.toolsResult = .ok ops ∧
        ∀ p ∈ ops,
          (dlookup (register_all_tools ([c6badMod, c6okMod].take 2) none []
            (initialState [])).reg.mcp.bound p.1).isSome = true) := by
  exact claim_C6 [] none [] [c6badMod, c6okMod] (by decide) 2

/-- Claim C10, witness: the legacy module `news_api`, registered
successfully, is stored under "News Api" (not "news_api") with
description "Legacy tool: news_api". -/
theorem claim_C10_witness :
    (register_tool (initialState []).reg
        (mkLegacyClass ["NEWS_API_KEY"] "news_api" c10legacyNews) []).1.tools =
      dupdate (initialState []).reg.tools (legacyGetName "news_api")
        (mkLegacyInstance ["NEWS_API_KEY"] "news_api" c10legacyNews) ∧
    (mkLegacyInstance ["NEWS_API_KEY"] "news_api" c10legacyNews).description =
      "Legacy tool: news_api" ∧
    ('_' ∈ "news_api".data → legacyGetName "news_api" ≠ "news_api") :=
  claim_C10 (initialState []).reg ["NEWS_API_KEY"] c10legacyNews "news_api" [] rfl

end ToolKit
